import Mathlib

/-!
A shallow embedding of the `jpang-backend` evacuation-simulation core
(`backend/simulation/{congestion,hazard,routing,agents,model}.py`) together
with proofs about its congestion model, hazard model, routing, agent state
machine and orchestrator step.

Conventions of the embedding:
* Python floats are modelled as `ℚ`; Python ints as `ℤ` or `ℕ` (counts).
* Python dicts are modelled as association lists with first-match lookup and
  insertion by appending (insertion order preserved, keys unique by guard).
* Functions of the source that compute transcendental quantities (the
  haversine segment length, the Web-Mercator projection, the Euclidean
  `math.hypot`) are abstracted as explicit function parameters carried in the
  corresponding state records; every theorem holds for an arbitrary
  instantiation of those parameters, and concrete instantiations are used in
  the closed examples.
* Python exceptions are modelled with `Option`/`Except`; `try/except: pass`
  blocks around total operations disappear, and the ones that can actually
  fire (missing attribute, no-path error) are modelled explicitly.
-/

/-- A `(lon, lat)` coordinate pair, in WGS84 degrees, exactly as used for
graph node keys in the source (exact equality, no snapping). -/
abbrev Coord : Type := ℚ × ℚ

/-- First-match lookup in an association list (Python `dict` read,
`dict.get`). -/
def alist_lookup {κ α : Type} [DecidableEq κ] : List (κ × α) → κ → Option α
  | [], _ => none
  | (k, v) :: rest, key => if k = key then some v else alist_lookup rest key

/-- Replace the value at the first occurrence of `key` (Python `dict` write to
an existing key). A missing key leaves the list unchanged. -/
def alist_set {κ α : Type} [DecidableEq κ] : List (κ × α) → κ → α → List (κ × α)
  | [], _, _ => []
  | (k, v) :: rest, key, newv =>
    if k = key then (k, newv) :: rest else (k, v) :: alist_set rest key newv

/-! ## Congestion (`backend/simulation/congestion.py`) -/

/-- The per-segment record stored in `CongestionManager.segment_data`:
`{"capacity": ..., "density": ...}`, both Python ints. -/
structure SegmentInfo where
  capacity : ℤ
  density : ℤ
  deriving DecidableEq

/-- `tuple(sorted([a, b]))`: the unordered segment key, ordered
lexicographically on `(lon, lat)`. -/
def seg_key (a b : Coord) : Coord × Coord :=
  if a.1 < b.1 ∨ (a.1 = b.1 ∧ a.2 ≤ b.2) then (a, b) else (b, a)

/-- `CongestionManager`: per-segment capacity and density plus the two
constants set in `__init__`. -/
structure CongestionManager where
  segment_data : List ((Coord × Coord) × SegmentInfo)
  default_capacity : ℤ
  congestion_strength : ℚ

/-- `CongestionManager.__init__`: empty data, default capacity 8,
congestion strength 0.8. -/
def CongestionManager.init : CongestionManager :=
  { segment_data := [], default_capacity := 8, congestion_strength := 4/5 }

/-- `CongestionManager.register_segment`: idempotent registration; a falsy
(`None` or `0`) capacity argument falls back to the default capacity
(`capacity or self.default_capacity`). -/
def CongestionManager.register_segment (m : CongestionManager) (a b : Coord)
    (capacity : Option ℤ := none) : CongestionManager :=
  let key := seg_key a b
  match alist_lookup m.segment_data key with
  | some _ => m
  | none =>
    let cap : ℤ :=
      match capacity with
      | some c => if c ≠ 0 then c else m.default_capacity
      | none => m.default_capacity
    { m with segment_data := m.segment_data ++ [(key, { capacity := cap, density := 0 })] }

/-- `CongestionManager.enter_segment`: increment density; silently a no-op on
an unregistered segment. -/
def CongestionManager.enter_segment (m : CongestionManager) (a b : Coord) :
    CongestionManager :=
  let key := seg_key a b
  match alist_lookup m.segment_data key with
  | none => m
  | some info =>
    { m with segment_data := alist_set m.segment_data key { info with density := info.density + 1 } }

/-- `CongestionManager.leave_segment`: decrement density, clamped at 0;
silently a no-op on an unregistered segment. -/
def CongestionManager.leave_segment (m : CongestionManager) (a b : Coord) :
    CongestionManager :=
  let key := seg_key a b
  match alist_lookup m.segment_data key with
  | none => m
  | some info =>
    { m with segment_data := alist_set m.segment_data key { info with density := max 0 (info.density - 1) } }

/-- `CongestionManager.get_speed_multiplier`: 1.0 for unregistered segments or
whenever `density <= capacity`, else `1 / (1 + strength * (density - capacity))`. -/
def CongestionManager.get_speed_multiplier (m : CongestionManager) (a b : Coord) : ℚ :=
  match alist_lookup m.segment_data (seg_key a b) with
  | none => 1
  | some info =>
    if info.density ≤ info.capacity then 1
    else 1 / (1 + m.congestion_strength * ((info.density - info.capacity : ℤ) : ℚ))

/-- `CongestionManager.get_density`: density of a segment, 0 if unregistered. -/
def CongestionManager.get_density (m : CongestionManager) (a b : Coord) : ℤ :=
  match alist_lookup m.segment_data (seg_key a b) with
  | none => 0
  | some info => info.density

/-- One call into the congestion manager, for stating invariants over
arbitrary call sequences. -/
inductive CongCall : Type
  | register (a b : Coord) (capacity : Option ℤ)
  | enter (a b : Coord)
  | leave (a b : Coord)

/-- Apply one `CongCall`. -/
def CongCall.apply (m : CongestionManager) : CongCall → CongestionManager
  | .register a b cap => m.register_segment a b cap
  | .enter a b => m.enter_segment a b
  | .leave a b => m.leave_segment a b

/-- Apply a sequence of congestion calls in order. -/
def CongCall.applyAll (m : CongestionManager) (calls : List CongCall) : CongestionManager :=
  calls.foldl CongCall.apply m

/-! ## Evacuation centers (`EvacCenterAgent` in `backend/simulation/agents.py`) -/

/-- `EvacCenterAgent`: location, capacity and current occupant count (counts,
hence `ℕ`). -/
structure EvacCenterAgent where
  loc : Coord
  capacity : ℕ
  occupants : ℕ
  deriving DecidableEq

/-- `EvacCenterAgent.__init__`: occupant count starts at 0 (default capacity
99999 in the source). -/
def EvacCenterAgent.init (loc : Coord) (capacity : ℕ := 99999) : EvacCenterAgent :=
  { loc := loc, capacity := capacity, occupants := 0 }

/-- `EvacCenterAgent.can_accept`: strictly below capacity. -/
def EvacCenterAgent.can_accept (c : EvacCenterAgent) : Bool :=
  c.occupants < c.capacity

/-- `EvacCenterAgent.add_occupant`: increment the count only while below
capacity; returns whether the occupant was accepted. -/
def EvacCenterAgent.add_occupant (c : EvacCenterAgent) : EvacCenterAgent × Bool :=
  if c.occupants < c.capacity then ({ c with occupants := c.occupants + 1 }, true)
  else (c, false)

/-! ## Hazard model (`backend/simulation/hazard.py`)

The shapely containment test of a prepared polygon and the
projection/`math.hypot` distance are abstracted as function parameters; the
claims proved below do not depend on their values. -/

/-- One entry of `TsunamiHazard._polygons`: a prepared geometry, abstracted to
its combined `contains`-or-`intersects` test, plus its arrival time. -/
structure HazardPolygon where
  contains_or_intersects : Coord → Bool
  arrival_time : ℚ

/-- `TsunamiHazard` state: current time, the two mode flags, precomputed
polygons, projected dynamic source points and propagation speed, plus the two
abstracted geometric functions (`lonlat_to_meters` and `meters_distance`). -/
structure TsunamiHazard where
  current_time : ℚ
  has_precomputed : Bool
  polygons : List HazardPolygon
  has_dynamic : Bool
  source_points_m : List (ℚ × ℚ)
  prop_speed : Option ℚ
  to_meters : Coord → ℚ × ℚ
  dist_m : (ℚ × ℚ) → (ℚ × ℚ) → ℚ

/-- `TsunamiHazard.__init__`.  `inundation_polygons` stands for the parsed
feature list of the inundation GeoJSON (`some` iff a truthy path was given):
each feature is its containment test and its optional arrival-time attribute,
defaulting to 0 when absent.  The dynamic branch is taken when the polygon
argument is absent and both `source_points` and `propagation_speed` are
truthy (non-empty list, nonzero speed), mirroring
`elif source_points and propagation_speed`. -/
def TsunamiHazard.init (to_meters : Coord → ℚ × ℚ)
    (dist_m : (ℚ × ℚ) → (ℚ × ℚ) → ℚ)
    (inundation_polygons : Option (List ((Coord → Bool) × Option ℚ)))
    (source_points : Option (List Coord))
    (propagation_speed : Option ℚ) : TsunamiHazard :=
  let base : TsunamiHazard :=
    { current_time := 0, has_precomputed := false, polygons := [],
      has_dynamic := false, source_points_m := [], prop_speed := none,
      to_meters := to_meters, dist_m := dist_m }
  match inundation_polygons with
  | some feats =>
    let polys := feats.map fun f =>
      ({ contains_or_intersects := f.1, arrival_time := f.2.getD 0 } : HazardPolygon)
    { base with polygons := polys, has_precomputed := decide (0 < polys.length) }
  | none =>
    match source_points, propagation_speed with
    | some pts, some sp =>
      if pts ≠ [] ∧ sp ≠ 0 then
        let pts_m := pts.map to_meters
        { base with
            source_points_m := pts_m
            prop_speed := some sp
            has_dynamic := decide (0 < pts_m.length ∧ 0 < sp) }
      else base
    | _, _ => base

/-- `TsunamiHazard.update`: set the internal clock. -/
def TsunamiHazard.update (h : TsunamiHazard) (t : ℚ) : TsunamiHazard :=
  { h with current_time := t }

/-- `TsunamiHazard.get_time_to_inundation`: first-match polygon arrival time
in precomputed mode; minimum projected distance over sources divided by the
speed in dynamic mode; `None` when no data covers the point. -/
def TsunamiHazard.get_time_to_inundation (h : TsunamiHazard) (coord : Coord) : Option ℚ :=
  if h.has_precomputed then
    (h.polygons.find? fun poly => poly.contains_or_intersects coord).map
      (fun poly => poly.arrival_time)
  else if h.has_dynamic then
    let coord_m := h.to_meters coord
    let min_dist := h.source_points_m.foldl
      (fun acc s =>
        let d := h.dist_m coord_m s
        match acc with
        | none => some d
        | some md => if d < md then some d else some md)
      none
    match h.prop_speed, min_dist with
    | some sp, some md => if sp ≠ 0 then some (md / sp) else none
    | _, _ => none
  else none

/-- `TsunamiHazard.is_inundated`: inundated iff the arrival time is known and
at most the query time (the current time when no explicit time is given). -/
def TsunamiHazard.is_inundated (h : TsunamiHazard) (coord : Coord)
    (time : Option ℚ := none) : Bool :=
  let t := match time with | none => h.current_time | some x => x
  match h.get_time_to_inundation coord with
  | none => false
  | some arrival => arrival ≤ t

/-! ## Population spawning (`EvacuationModel._spawn_people`) -/

/-- The loop guard `population_limit and spawned >= population_limit`:
true only when the limit is present, nonzero (Python truthiness) and reached. -/
def limit_reached (limit : Option ℕ) (spawned : ℕ) : Bool :=
  match limit with
  | none => false
  | some l => decide (l ≠ 0) && decide (l ≤ spawned)

/-- The inner `for i in range(count)` loop of `_spawn_people`: spawn one
person per iteration, breaking once the limit is reached. -/
def spawn_inner (limit : Option ℕ) : ℕ → ℕ → ℕ
  | 0, spawned => spawned
  | count + 1, spawned =>
    if limit_reached limit spawned then spawned
    else spawn_inner limit count (spawned + 1)

/-- The outer loop of `_spawn_people` over the buildings, breaking once the
limit is reached; `pops` lists the per-building person counts (rows with null
geometry omitted, the `pop` attribute defaulting to 1 per building). -/
def spawn_people_loop (limit : Option ℕ) : List ℕ → ℕ → ℕ
  | [], spawned => spawned
  | c :: rest, spawned =>
    if limit_reached limit spawned then spawned
    else spawn_people_loop limit rest (spawn_inner limit c spawned)

/-- Number of evacuees spawned by `EvacuationModel._spawn_people` given the
optional population limit and the per-building counts. -/
def spawn_people (limit : Option ℕ) (pops : List ℕ) : ℕ :=
  spawn_people_loop limit pops 0

/-! ## Routing (`backend/simulation/routing.py`, `backend/utils/graph_builder.py`) -/

/-- The road graph: node list and weighted undirected edge list, as built by
`build_road_graph` (weights are planar degree-space distances; they play no
role in the claims below). -/
structure RoadGraph where
  nodes : List Coord
  edges : List (Coord × Coord × ℚ)

/-- `nearest_node`: scan all nodes and keep the first one minimizing squared
planar distance (strict `<`, so ties keep the first encountered); `None` on an
empty graph. -/
def nearest_node (g : RoadGraph) (point : Coord) : Option Coord :=
  (g.nodes.foldl
    (fun best node =>
      let dist := (node.1 - point.1) * (node.1 - point.1) + (node.2 - point.2) * (node.2 - point.2)
      match best with
      | none => some (node, dist)
      | some (bn, bd) => if dist < bd then some (node, dist) else some (bn, bd))
    none).map Prod.fst

/-- Neighbors of a node in the undirected graph. -/
def RoadGraph.neighbors (g : RoadGraph) (u : Coord) : List Coord :=
  g.edges.filterMap (fun e => if e.1 = u then some e.2.1 else none) ++
    g.edges.filterMap (fun e => if e.2.1 = u then some e.1 else none)

/-- `u` and `v` are joined by an edge (in either direction). -/
def RoadGraph.Adj (g : RoadGraph) (u v : Coord) : Prop :=
  v ∈ g.neighbors u

/-- Graph reachability along edges. -/
inductive RoadGraph.Reachable (g : RoadGraph) : Coord → Coord → Prop
  | refl (u : Coord) : RoadGraph.Reachable g u u
  | step {u v w : Coord} : g.Adj u v → RoadGraph.Reachable g v w →
      RoadGraph.Reachable g u w

/-- First-success accumulator: keep an already-found result, else try the
next candidate. -/
def orelse_step {α β : Type} (f : β → Option α) (acc : Option α) (v : β) : Option α :=
  match acc with
  | some p => some p
  | none => f v

/-- Depth-first search for a node path from `u` to `t`, avoiding revisits
along the current branch; fuel bounds the recursion depth. -/
def dfs_path (g : RoadGraph) (t : Coord) : ℕ → Coord → List Coord → Option (List Coord)
  | 0, _, _ => none
  | fuel + 1, u, visited =>
    if u = t then some [u]
    else
      (g.neighbors u).foldl
        (orelse_step fun v =>
          if v ∈ visited then none
          else (dfs_path g t fuel v (v :: visited)).map (fun p => u :: p))
        none

/-- The error raised by `networkx.shortest_path` when the target is not
reachable from the source (`NetworkXNoPath`). -/
inductive RouteError : Type
  | noPath
  deriving DecidableEq

/-- Modelled from the library behaviour of `networkx.shortest_path`: returns
a node path from source to target when one exists and raises
`NetworkXNoPath` otherwise.  The embedding returns some path via depth-first
search; no claim below depends on which path (or on weight minimality). -/
def nx_shortest_path (g : RoadGraph) (s t : Coord) : Except RouteError (List Coord) :=
  match dfs_path g t (g.nodes.length + 1) s [s] with
  | some p => .ok p
  | none => .error .noPath

/-- `compute_shortest_route`: snap both query points to nearest nodes, return
`[]` if either is `None` (empty graph), else run the library shortest path —
whose no-path error propagates out of this function uncaught. -/
def compute_shortest_route (g : RoadGraph) (start fin : Coord) :
    Except RouteError (List Coord) :=
  match nearest_node g start, nearest_node g fin with
  | some s, some t => nx_shortest_path g s t
  | _, _ => .ok []

/-! ## Evacuee agents (`PersonAgent` in `backend/simulation/agents.py`) -/

/-- The evacuee states of the source (string-valued there). -/
inductive PState : Type
  | idle
  | evacuating
  | safe
  | stuck
  | overtaken
  deriving DecidableEq

/-- A state is terminal when it is `safe`, `stuck` or `overtaken`. -/
def PState.isTerminal : PState → Bool
  | .safe => true
  | .stuck => true
  | .overtaken => true
  | _ => false

/-- `interpolate`: linear interpolation between two points. -/
def interpolate (a b : Coord) (t : ℚ) : Coord :=
  (a.1 + (b.1 - a.1) * t, a.2 + (b.2 - a.2) * t)

/-- `PersonAgent` state. -/
structure PersonAgent where
  home : Coord
  pos : Coord
  speed : ℚ
  state : PState
  evac_center_id : Option ℕ
  route : List Coord
  route_idx : ℕ
  segment_progress : ℚ
  reached : Bool
  deriving DecidableEq

/-- `PersonAgent.__init__`. -/
def PersonAgent.init (home : Coord) (speed : ℚ := 7/5) : PersonAgent :=
  { home := home, pos := home, speed := speed, state := .idle,
    evac_center_id := none, route := [], route_idx := 0,
    segment_progress := 0, reached := false }

/-- `PersonAgent._current_segment`: the pair of endpoints the agent is
traversing, `None` when the route is empty or the cursor is at or past the
last node. -/
def PersonAgent.current_segment (p : PersonAgent) : Option (Coord × Coord) :=
  if h : p.route_idx + 1 < p.route.length then
    some (p.route.get ⟨p.route_idx, by omega⟩, p.route.get ⟨p.route_idx + 1, by omega⟩)
  else none

/-- The model state visible to a `PersonAgent` during its step: the
congestion handle, the evac-center registry, tick length, simulated time, the
(optional, via `getattr`) hazard handle, and the abstracted haversine segment
length `_segment_length_m`. -/
structure ModelState where
  congestion : CongestionManager
  evac_agents : List (ℕ × EvacCenterAgent)
  step_time_seconds : ℚ
  sim_time : ℚ
  hazard : Option TsunamiHazard
  seg_len_m : Coord → Coord → ℚ

/-- The body of the rollover `while` loop of `PersonAgent.step`, with fuel:
while `progress >= 1.0` and a next segment exists, leave the current
segment's occupancy, advance the cursor, subtract 1 from progress and enter
the next segment's occupancy.  The fuel only bounds the iteration count; the
loop always exits through its guard because the index strictly increases. -/
def rollover_go (route : List Coord) :
    ℕ → CongestionManager → ℕ → ℚ → CongestionManager × ℕ × ℚ
  | 0, cong, idx, prog => (cong, idx, prog)
  | fuel + 1, cong, idx, prog =>
    if h : 1 ≤ prog ∧ idx < route.length - 1 then
      let cong1 := cong.leave_segment (route.get ⟨idx, by omega⟩)
        (route.get ⟨idx + 1, by omega⟩)
      let idx' := idx + 1
      let prog' := prog - 1
      let cong2 :=
        if h2 : idx' + 1 < route.length then
          cong1.enter_segment (route.get ⟨idx', by omega⟩) (route.get ⟨idx' + 1, by omega⟩)
        else cong1
      rollover_go route fuel cong2 idx' prog'
    else (cong, idx, prog)

/-- The rollover loop of `PersonAgent.step`, with enough fuel to always exit
through its guard. -/
def rollover_loop (cong : CongestionManager) (route : List Coord) (idx : ℕ)
    (prog : ℚ) : CongestionManager × ℕ × ℚ :=
  rollover_go route route.length cong idx prog

/-- `PersonAgent._arrive`: leave the segment ending at the cursor (when the
cursor is positive and both indices are in range — an out-of-range index
raises and is swallowed), mark `safe` and `reached`, and notify the assigned
evac center via `add_occupant` (only while it can still accept). -/
def PersonAgent.arrive (p : PersonAgent) (m : ModelState) : ModelState × PersonAgent :=
  let cong :=
    if 0 < p.route_idx then
      match p.route.get? (p.route_idx - 1), p.route.get? p.route_idx with
      | some a, some b => m.congestion.leave_segment a b
      | _, _ => m.congestion
    else m.congestion
  let p1 := { p with state := .safe, reached := true }
  let m1 := { m with congestion := cong }
  match p1.evac_center_id with
  | none => (m1, p1)
  | some cid =>
    match alist_lookup m1.evac_agents cid with
    | none => (m1, p1)
    | some center =>
      ({ m1 with evac_agents := alist_set m1.evac_agents cid center.add_occupant.1 }, p1)

/-- `PersonAgent._become_overtaken`: leave the current segment's occupancy
(if any), set state `overtaken`, reset `reached`. -/
def PersonAgent.become_overtaken (p : PersonAgent) (m : ModelState) :
    ModelState × PersonAgent :=
  let cong :=
    match p.current_segment with
    | some (a, b) => m.congestion.leave_segment a b
    | none => m.congestion
  ({ m with congestion := cong }, { p with state := .overtaken, reached := false })

/-- `PersonAgent.assign_route`: leave any previously occupied segment; a route
of fewer than 2 nodes empties the route and marks the agent `stuck`;
otherwise install the route, reset the cursor, mark `evacuating` and enter
the first segment's occupancy. -/
def PersonAgent.assign_route (p : PersonAgent) (m : ModelState)
    (route_nodes : List Coord) (eid : Option ℕ) : ModelState × PersonAgent :=
  let cong :=
    match p.current_segment with
    | some (a, b) => m.congestion.leave_segment a b
    | none => m.congestion
  let m1 := { m with congestion := cong }
  if h : route_nodes.length < 2 then
    (m1, { p with route := [], evac_center_id := none, state := .stuck })
  else
    let p1 := { p with
      route := route_nodes
      route_idx := 0
      segment_progress := 0
      evac_center_id := eid
      state := .evacuating }
    ({ m1 with congestion := (m1.congestion.enter_segment
        (route_nodes.get ⟨0, by omega⟩) (route_nodes.get ⟨1, by omega⟩)) }, p1)

/-- `PersonAgent.step`, the per-tick movement update, transcribed from the
source: early return unless `evacuating`; arrive if the cursor is at or past
the last node; otherwise read the (stale-bound) current segment endpoints,
hop instantly over a zero-length segment, else advance fractional progress by
`speed * multiplier * step_seconds / seg_len`, run the rollover loop, set the
position by interpolating the *stale* endpoints at the clamped progress
(exactly as the source does), run the final-node arrival check, and finally
run the agent-level hazard overtake check. -/
def PersonAgent.step (p : PersonAgent) (m : ModelState) : ModelState × PersonAgent :=
  if p.state ≠ .evacuating then (m, p)
  else if p.route.length - 1 ≤ p.route_idx then p.arrive m
  else
    match p.current_segment with
    | none => (m, { p with state := .stuck })
    | some (start_node, end_node) =>
      let seg_len := m.seg_len_m start_node end_node
      if seg_len = 0 then
        let cong1 := m.congestion.leave_segment start_node end_node
        let p1 := { p with route_idx := p.route_idx + 1, segment_progress := 0 }
        let cong2 :=
          match p1.current_segment with
          | some (ns, ne) => cong1.enter_segment ns ne
          | none => cong1
        ({ m with congestion := cong2 }, p1)
      else
        let speed_factor := m.congestion.get_speed_multiplier start_node end_node
        let effective_speed := p.speed * speed_factor
        let dist_this_step := effective_speed * m.step_time_seconds
        let delta := dist_this_step / seg_len
        let prog0 := p.segment_progress + delta
        let res := rollover_loop m.congestion p.route p.route_idx prog0
        let s := max 0 (min 1 res.2.2)
        let p1 := { p with
          route_idx := res.2.1
          segment_progress := res.2.2
          pos := interpolate start_node end_node s }
        let m1 := { m with congestion := res.1 }
        let arr :=
          if p1.route.length - 1 ≤ p1.route_idx then
            match p1.route.getLast? with
            | some end_coord =>
              if m1.seg_len_m p1.pos end_coord < 1 then p1.arrive m1 else (m1, p1)
            | none => (m1, p1)
          else (m1, p1)
        match arr.1.hazard with
        | none => arr
        | some hz =>
          match hz.get_time_to_inundation arr.2.pos with
          | some arrival =>
            if arrival ≤ arr.1.sim_time then arr.2.become_overtaken arr.1 else arr
          | none => arr

/-- Iterate the agent-level movement step tick-by-tick. -/
def run_steps (m : ModelState) (p : PersonAgent) : ℕ → ModelState × PersonAgent
  | 0 => (m, p)
  | k + 1 =>
    let r := p.step m
    run_steps r.1 r.2 k

/-! ## Orchestrator (`EvacuationModel` in `backend/simulation/model.py`) -/

/-- Stable insertion into a list sorted ascending by `key` (models Python's
stable `sorted(..., key=...)`): an element goes after existing equals. -/
def insert_by_key {α : Type} (key : α → ℚ) (x : α) : List α → List α
  | [] => [x]
  | y :: ys => if key x < key y then x :: y :: ys else y :: insert_by_key key x ys

/-- Stable sort ascending by `key` (models Python's `sorted(..., key=...)`). -/
def sort_by_key {α : Type} (key : α → ℚ) : List α → List α
  | [] => []
  | x :: xs => insert_by_key key x (sort_by_key key xs)

/-- The whole simulation state owned by the orchestrator. -/
structure EvacuationModel where
  congestion : CongestionManager
  evac_agents : List (ℕ × EvacCenterAgent)
  person_agents : List (ℕ × PersonAgent)
  step_time_seconds : ℚ
  sim_time : ℚ
  hazard : Option TsunamiHazard
  seg_len_m : Coord → Coord → ℚ
  road_graph : RoadGraph
  reroute_threshold_s : ℚ

/-- The agent-visible projection of the orchestrator state. -/
def EvacuationModel.toModelState (s : EvacuationModel) : ModelState :=
  { congestion := s.congestion, evac_agents := s.evac_agents,
    step_time_seconds := s.step_time_seconds, sim_time := s.sim_time,
    hazard := s.hazard, seg_len_m := s.seg_len_m }

/-- Write an agent-visible `ModelState` back into the orchestrator state. -/
def EvacuationModel.withModelState (s : EvacuationModel) (m : ModelState) :
    EvacuationModel :=
  { s with
      congestion := m.congestion
      evac_agents := m.evac_agents
      sim_time := m.sim_time
      hazard := m.hazard }

/-- Update one person record in place. -/
def EvacuationModel.setPerson (s : EvacuationModel) (uid : ℕ) (p : PersonAgent) :
    EvacuationModel :=
  { s with person_agents := alist_set s.person_agents uid p }

/-- The candidate scan of `recompute_route_for_person`: evac centers sorted
by squared planar distance from `pos`, first one that can accept. -/
def EvacuationModel.pick_new_target (s : EvacuationModel) (pos : Coord) :
    Option (ℕ × EvacCenterAgent) :=
  (sort_by_key
      (fun c : ℕ × EvacCenterAgent =>
        (c.2.loc.1 - pos.1) * (c.2.loc.1 - pos.1) + (c.2.loc.2 - pos.2) * (c.2.loc.2 - pos.2))
      s.evac_agents).find?
    (fun c => c.2.can_accept)

/-- `EvacuationModel.recompute_route_for_person`: nothing to do without a
person or a route; keep the current target if it exists and can accept
(the Python guard `if current_target` is a truthiness test, so id 0 counts
as absent), else pick the nearest accepting center; compute a fresh path
from the current position (a raised no-path error is caught and treated as
`[]`); install it via `assign_route` only when it has at least 2 nodes. -/
def EvacuationModel.recompute_route_for_person (s : EvacuationModel) (uid : ℕ) :
    EvacuationModel × Bool :=
  match alist_lookup s.person_agents uid with
  | none => (s, false)
  | some person =>
    if person.route = [] then (s, false)
    else
      let target0 : Option (ℕ × EvacCenterAgent) :=
        match person.evac_center_id with
        | some cid =>
          if cid ≠ 0 then
            match alist_lookup s.evac_agents cid with
            | some t => some (cid, t)
            | none => none
          else none
        | none => none
      let target1 : Option (ℕ × EvacCenterAgent) :=
        match target0 with
        | some (cid, t) => if t.can_accept then some (cid, t) else s.pick_new_target person.pos
        | none => s.pick_new_target person.pos
      match target1 with
      | none => (s, false)
      | some (cid, target) =>
        let new_path :=
          match compute_shortest_route s.road_graph person.pos target.loc with
          | .ok path => path
          | .error _ => []
        if 2 ≤ new_path.length then
          let r := person.assign_route s.toModelState new_path (some cid)
          ((s.withModelState r.1).setPerson uid r.2, true)
        else (s, false)

/-- The capacity branch (3) of the post-move pass: when the person's assigned
center exists and cannot accept, attempt a reroute. -/
def EvacuationModel.capacity_check (s : EvacuationModel) (uid : ℕ) : EvacuationModel :=
  match alist_lookup s.person_agents uid with
  | none => s
  | some person =>
    match person.evac_center_id with
    | none => s
    | some cid =>
      match alist_lookup s.evac_agents cid with
      | none => s
      | some ev => if ev.can_accept then s else (s.recompute_route_for_person uid).1

/-- The defensive cleanup of the post-move pass: an evacuee in a terminal
state must hold no congestion occupancy, so its current segment (when one
exists) is left. -/
def EvacuationModel.cleanup_terminal (s : EvacuationModel) (uid : ℕ) : EvacuationModel :=
  match alist_lookup s.person_agents uid with
  | none => s
  | some person =>
    if person.state = .safe ∨ person.state = .overtaken ∨ person.state = .stuck then
      match person.current_segment with
      | some (a, b) => { s with congestion := s.congestion.leave_segment a b }
      | none => s
    else s

/-- One person's slice of the post-move pass of `EvacuationModel.step`:
for an `evacuating` person, (1) hazard overtake (then `continue`, skipping
the cleanup) — a missing hazard attribute raises and the per-person guard
skips the rest of the body —, (2) imminence reroute, (3) capacity reroute;
finally the terminal cleanup. -/
def EvacuationModel.post_pass_person (s : EvacuationModel) (uid : ℕ) : EvacuationModel :=
  match alist_lookup s.person_agents uid with
  | none => s
  | some person =>
    if person.state = .evacuating then
      match s.hazard with
      | none => s
      | some hz =>
        match hz.get_time_to_inundation person.pos with
        | some arrival =>
          if arrival ≤ s.sim_time then
            let r := person.become_overtaken s.toModelState
            (s.withModelState r.1).setPerson uid r.2
          else
            let s1 :=
              if arrival - s.sim_time ≤ s.reroute_threshold_s then
                (s.recompute_route_for_person uid).1
              else s
            (s1.capacity_check uid).cleanup_terminal uid
        | none => (s.capacity_check uid).cleanup_terminal uid
    else s.cleanup_terminal uid

/-- One person's slice of `self.schedule.step()`: look the agent up, run its
movement step, write back the updated shared state and agent.
(`EvacCenterAgent.step` is a no-op and is omitted.) -/
def EvacuationModel.activate_person (s : EvacuationModel) (uid : ℕ) : EvacuationModel :=
  match alist_lookup s.person_agents uid with
  | none => s
  | some p =>
    let r := p.step s.toModelState
    (s.withModelState r.1).setPerson uid r.2

/-- `self.schedule.step()`: activate every person once, in the shuffled
`order` chosen by `RandomActivation` for this tick. -/
def EvacuationModel.schedule_step (s : EvacuationModel) (order : List ℕ) :
    EvacuationModel :=
  order.foldl EvacuationModel.activate_person s

/-- `EvacuationModel.step`: advance the clock by `step_time_seconds`, push the
new time into the hazard (absence of the attribute is swallowed), activate
all agents in the shuffled `order`, then run the post-move pass over the
person ids (the data collection at the end is pure reporting and is
omitted). -/
def EvacuationModel.step (s : EvacuationModel) (order : List ℕ) : EvacuationModel :=
  let s1 := { s with sim_time := s.sim_time + s.step_time_seconds }
  let s2 := { s1 with hazard := s1.hazard.map (fun hz : TsunamiHazard => hz.update s1.sim_time) }
  let s3 := s2.schedule_step order
  (s3.person_agents.map Prod.fst).foldl EvacuationModel.post_pass_person s3

/-! ## Specification predicates and concrete fixtures -/

/-- All registered segments have nonnegative density. -/
def DensOk (m : CongestionManager) : Prop :=
  ∀ key info, alist_lookup m.segment_data key = some info → 0 ≤ info.density

/-- All evacuation centers are within capacity. -/
def EvacOk (l : List (ℕ × EvacCenterAgent)) : Prop :=
  ∀ cid c, alist_lookup l cid = some c → c.occupants ≤ c.capacity

/-- The state-machine edges allowed by the specification (§4.4), together
with the trivial self-loops (staying put is always allowed): `idle` may start
evacuating or get stuck, `evacuating` may continue, arrive safe, get stuck or
be overtaken, and the terminal states allow no outgoing edge. -/
def allowed_edge (s s' : PState) : Prop :=
  s = s' ∨ (s = .idle ∧ s' = .evacuating) ∨ (s = .idle ∧ s' = .stuck) ∨
    (s = .evacuating ∧ (s' = .safe ∨ s' = .stuck ∨ s' = .overtaken))

/-- The state relation realized by any single orchestrator-internal person
update: stay put, or move out of `evacuating` into `safe`, `stuck` or
`overtaken`. -/
def step_rel (s s' : PState) : Prop :=
  s = s' ∨ (s = .evacuating ∧ (s' = .safe ∨ s' = .stuck ∨ s' = .overtaken))


/-- What any single per-person orchestrator operation may do to the person
registry: leave it unchanged, or update the processed (and then necessarily
`evacuating`) person's entry along the single-update relation. -/
def PersonsFact (s s' : EvacuationModel) (v : ℕ) : Prop :=
  s'.person_agents = s.person_agents ∨
  ∃ pv x : PersonAgent, alist_lookup s.person_agents v = some pv ∧
    pv.state = .evacuating ∧ step_rel pv.state x.state ∧
    s'.person_agents = alist_set s.person_agents v x

/-- An evacuee record in mid-evacuation, used by the round-trip argument. -/
def mk_evacuee (home : Coord) (v : ℚ) (eid : Option ℕ) (route : List Coord)
    (idx : ℕ) (prog : ℚ) (pos : Coord) : PersonAgent :=
  { home := home, pos := pos, speed := v, state := .evacuating,
    evac_center_id := eid, route := route, route_idx := idx,
    segment_progress := prog, reached := false }

/-- Fixture for the stale-interpolation counterexample: every segment is 10
meters long. -/
def c5_segf : Coord → Coord → ℚ := fun _ _ => 10

/-- Fixture: empty congestion, no hazard, 1-second ticks. -/
def c5_model : ModelState :=
  { congestion := CongestionManager.init, evac_agents := [],
    step_time_seconds := 1, sim_time := 0, hazard := none, seg_len_m := c5_segf }

/-- Fixture: an evacuee at the start of the 3-node route
`[(0,0), (0,1), (1,1)]`, fast enough (13 m/s against 10-meter segments) to
roll over a segment boundary in one tick. -/
def c5_person : PersonAgent :=
  mk_evacuee (0, 0) 13 (some 1) [(0, 0), (0, 1), (1, 1)] 0 0 (0, 0)

/-- Fixture for the round-trip counterexample: the segment out of `(0,0)` is
10 meters long, every other one 100 meters. -/
def c6cx_segf : Coord → Coord → ℚ := fun a b =>
  if a = ((0 : ℚ), (0 : ℚ)) ∨ b = ((0 : ℚ), (0 : ℚ)) then 10 else 100

/-- Fixture: empty congestion (multiplier identically 1), no hazard,
1-second ticks, the two-segment length function above. -/
def c6cx_model : ModelState :=
  { congestion := CongestionManager.init, evac_agents := [],
    step_time_seconds := 1, sim_time := 0, hazard := none, seg_len_m := c6cx_segf }

/-- Fixture: an evacuee walking 30 m/s on the route `[(0,0), (0,1), (1,1)]`
whose segments measure 10 and 100 meters (total 110). -/
def c6cx_person : PersonAgent :=
  mk_evacuee (0, 0) 30 (some 1) [(0, 0), (0, 1), (1, 1)] 0 0 (0, 0)

/-- Fixture for the terminal-cleanup counterexample: the segment
`(0,0)-(0,1)` registered with one occupant. -/
def c1cx_cong : CongestionManager :=
  (CongestionManager.init.register_segment (0, 0) (0, 1)).enter_segment (0, 0) (0, 1)

/-- Fixture: an evacuee overtaken mid-route, its cursor still on segment
`(0,0)-(0,1)`. -/
def c1cx_person : PersonAgent :=
  { mk_evacuee (0, 0) 13 (some 1) [(0, 0), (0, 1), (1, 1)] 0 0 (0, 0) with
      state := .overtaken }

/-- Fixture: a one-person simulation holding the overtaken evacuee and the
density-1 segment. -/
def c1cx_state : EvacuationModel :=
  { congestion := c1cx_cong, evac_agents := [], person_agents := [(1, c1cx_person)],
    step_time_seconds := 1, sim_time := 0, hazard := none,
    seg_len_m := fun _ _ => 10,
    road_graph := { nodes := [], edges := [] }, reroute_threshold_s := 30 }

/-! ## Association-list lemmas -/

theorem alist_lookup_set_self {κ α : Type} [DecidableEq κ] (l : List (κ × α))
    (k : κ) (v w : α) (h : alist_lookup l k = some w) :
    alist_lookup (alist_set l k v) k = some v := by
  induction l with
  | nil => simp [alist_lookup] at h
  | cons head tail ih =>
    obtain ⟨a, b⟩ := head
    by_cases hk : a = k
    · subst hk
      simp [alist_lookup, alist_set]
    · simp [alist_lookup, alist_set, hk] at h ⊢
      exact ih h

theorem alist_lookup_set_ne {κ α : Type} [DecidableEq κ] (l : List (κ × α))
    (k k' : κ) (v : α) (h : k' ≠ k) :
    alist_lookup (alist_set l k v) k' = alist_lookup l k' := by
  induction l with
  | nil => simp [alist_set]
  | cons head tail ih =>
    obtain ⟨a, b⟩ := head
    by_cases hk : a = k
    · subst hk
      have hak : ¬ a = k' := fun hh => h hh.symm
      simp [alist_lookup, alist_set, hak]
    · by_cases hk' : a = k'
      · have hkk : ¬ k' = k := by rw [← hk']; exact hk
        simp [alist_lookup, alist_set, hk, hk', hkk]
      · simp [alist_lookup, alist_set, hk, hk', ih]

theorem alist_lookup_set_cases {κ α : Type} [DecidableEq κ] (l : List (κ × α))
    (k k' : κ) (v i : α) (h : alist_lookup (alist_set l k v) k' = some i) :
    i = v ∨ alist_lookup l k' = some i := by
  induction l with
  | nil => simp [alist_set, alist_lookup] at h
  | cons head tail ih =>
    obtain ⟨a, b⟩ := head
    by_cases hk : a = k
    · subst hk
      by_cases hk' : a = k'
      · simp [alist_lookup, alist_set, hk'] at h
        exact Or.inl h.symm
      · simp [alist_lookup, alist_set, hk'] at h ⊢
        exact Or.inr h
    · by_cases hk' : a = k'
      · have hkk : ¬ k' = k := by rw [← hk']; exact hk
        simp [alist_lookup, alist_set, hk, hk', hkk] at h ⊢
        exact Or.inr h
      · simp [alist_lookup, alist_set, hk, hk'] at h ⊢
        exact ih h

theorem alist_lookup_set_isSome {κ α : Type} [DecidableEq κ] (l : List (κ × α))
    (k k' : κ) (v : α) :
    (alist_lookup (alist_set l k v) k').isSome = (alist_lookup l k').isSome := by
  induction l with
  | nil => simp [alist_set]
  | cons head tail ih =>
    obtain ⟨a, b⟩ := head
    by_cases hk : a = k
    · subst hk
      by_cases hk' : a = k'
      · simp [alist_lookup, alist_set, hk']
      · simp [alist_lookup, alist_set, hk']
    · by_cases hk' : a = k'
      · have hkk : ¬ k' = k := by rw [← hk']; exact hk
        simp [alist_lookup, alist_set, hk, hk', hkk]
      · simp [alist_lookup, alist_set, hk, hk', ih]

theorem alist_set_self_eq {κ α : Type} [DecidableEq κ] (l : List (κ × α))
    (k : κ) (w : α) (h : alist_lookup l k = some w) : alist_set l k w = l := by
  induction l with
  | nil => rfl
  | cons head tail ih =>
    obtain ⟨a, b⟩ := head
    by_cases hk : a = k
    · subst hk
      simp [alist_lookup] at h
      simp [alist_set, h]
    · simp [alist_lookup, hk] at h
      simp [alist_set, hk, ih h]

theorem alist_lookup_append_cases {κ α : Type} [DecidableEq κ] (l : List (κ × α))
    (k k' : κ) (v i : α) (h : alist_lookup (l ++ [(k, v)]) k' = some i) :
    alist_lookup l k' = some i ∨ i = v := by
  induction l with
  | nil =>
    simp only [List.nil_append, alist_lookup] at h
    by_cases hk : k = k'
    · simp [hk] at h
      exact Or.inr h.symm
    · simp [hk, alist_lookup] at h
  | cons head tail ih =>
    obtain ⟨a, b⟩ := head
    by_cases hk : a = k'
    · simp [alist_lookup, hk] at h ⊢
      exact Or.inl h
    · simp [alist_lookup, hk] at h ⊢
      exact ih h

/-! ## C2: the congestion speed multiplier -/

theorem c2_denom_pos (x y : ℤ) (hxy : x < y) :
    (0 : ℚ) < 1 + (4/5) * ((y - x : ℤ) : ℚ) := by
  have h0 : (1 : ℤ) ≤ y - x := by omega
  have h1 : (1 : ℚ) ≤ ((y - x : ℤ) : ℚ) := by exact_mod_cast h0
  nlinarith

theorem c2_mult_lt_one (x y : ℤ) (hxy : x < y) :
    1 / (1 + (4/5) * ((y - x : ℤ) : ℚ)) < 1 := by
  have h0 : (1 : ℤ) ≤ y - x := by omega
  have h1 : (1 : ℚ) ≤ ((y - x : ℤ) : ℚ) := by exact_mod_cast h0
  rw [div_lt_one (c2_denom_pos x y hxy)]
  nlinarith

/-- C2.  For every registered segment (with the constructor's congestion
strength 0.8), `get_speed_multiplier` returns exactly 1 whenever
`density ≤ capacity`, otherwise `1 / (1 + 0.8 * (density - capacity))`; the
value always lies in `(0, 1]`, and it is strictly decreasing in the density
once the density is at or above capacity. -/
theorem c2_speed_multiplier_spec (m m' : CongestionManager) (a b : Coord)
    (cap d d' : ℤ)
    (hs : m.congestion_strength = 4/5) (hs' : m'.congestion_strength = 4/5)
    (h : alist_lookup m.segment_data (seg_key a b) = some ⟨cap, d⟩)
    (h' : alist_lookup m'.segment_data (seg_key a b) = some ⟨cap, d'⟩) :
    (d ≤ cap → m.get_speed_multiplier a b = 1) ∧
    (cap < d → m.get_speed_multiplier a b = 1 / (1 + (4/5) * ((d - cap : ℤ) : ℚ))) ∧
    0 < m.get_speed_multiplier a b ∧ m.get_speed_multiplier a b ≤ 1 ∧
    (cap ≤ d → d < d' → m'.get_speed_multiplier a b < m.get_speed_multiplier a b) := by
  have hm : m.get_speed_multiplier a b =
      if d ≤ cap then 1 else 1 / (1 + (4/5) * ((d - cap : ℤ) : ℚ)) := by
    unfold CongestionManager.get_speed_multiplier
    rw [h, hs]
  have hm' : m'.get_speed_multiplier a b =
      if d' ≤ cap then 1 else 1 / (1 + (4/5) * ((d' - cap : ℤ) : ℚ)) := by
    unfold CongestionManager.get_speed_multiplier
    rw [h', hs']
  refine ⟨?_, ?_, ?_, ?_, ?_⟩
  · intro hd; rw [hm, if_pos hd]
  · intro hd; rw [hm, if_neg (not_le.mpr hd)]
  · rw [hm]
    by_cases hd : d ≤ cap
    · rw [if_pos hd]; norm_num
    · have hlt := lt_of_not_le hd
      rw [if_neg hd]
      exact div_pos (by norm_num) (c2_denom_pos cap d hlt)
  · rw [hm]
    by_cases hd : d ≤ cap
    · rw [if_pos hd]
    · have hlt := lt_of_not_le hd
      rw [if_neg hd]
      exact le_of_lt (c2_mult_lt_one cap d hlt)
  · intro hcd hdd'
    have hd' : cap < d' := lt_of_le_of_lt hcd hdd'
    rw [hm, hm', if_neg (not_le.mpr hd')]
    by_cases hd : d ≤ cap
    · rw [if_pos hd]
      exact c2_mult_lt_one cap d' hd'
    · have hlt := lt_of_not_le hd
      rw [if_neg hd]
      rw [div_lt_div_iff₀ (c2_denom_pos cap d' hd') (c2_denom_pos cap d hlt)]
      have hc0 : (d - cap : ℤ) < (d' - cap : ℤ) := by omega
      have hc : ((d - cap : ℤ) : ℚ) < ((d' - cap : ℤ) : ℚ) := by exact_mod_cast hc0
      nlinarith

/-- Witness for C2: a segment with capacity 8 queried at densities 9 and 10. -/
theorem c2_speed_multiplier_spec_witness :
    ({ segment_data := [(seg_key (0, 0) (0, 1), ⟨8, 9⟩)], default_capacity := 8,
       congestion_strength := 4/5 } : CongestionManager).get_speed_multiplier (0, 0) (0, 1) ≤ 1 ∧
    ({ segment_data := [(seg_key (0, 0) (0, 1), ⟨8, 10⟩)], default_capacity := 8,
       congestion_strength := 4/5 } : CongestionManager).get_speed_multiplier (0, 0) (0, 1) <
      ({ segment_data := [(seg_key (0, 0) (0, 1), ⟨8, 9⟩)], default_capacity := 8,
         congestion_strength := 4/5 } : CongestionManager).get_speed_multiplier (0, 0) (0, 1) := by
  have h := c2_speed_multiplier_spec
    { segment_data := [(seg_key (0, 0) (0, 1), ⟨8, 9⟩)], default_capacity := 8,
      congestion_strength := 4/5 }
    { segment_data := [(seg_key (0, 0) (0, 1), ⟨8, 10⟩)], default_capacity := 8,
      congestion_strength := 4/5 }
    (0, 0) (0, 1) 8 9 10 rfl rfl (by simp [alist_lookup]) (by simp [alist_lookup])
  exact ⟨h.2.2.2.1, h.2.2.2.2 (by norm_num) (by norm_num)⟩

/-! ## C7: density nonnegativity -/

theorem densok_register (m : CongestionManager) (a b : Coord) (cap : Option ℤ)
    (hm : DensOk m) : DensOk (m.register_segment a b cap) := by
  intro key info h
  rcases hl : alist_lookup m.segment_data (seg_key a b) with _ | info0
  · simp only [CongestionManager.register_segment, hl] at h
    rcases alist_lookup_append_cases _ _ _ _ _ h with hc | hc
    · exact hm key info hc
    · subst hc
      simp
  · simp only [CongestionManager.register_segment, hl] at h
    exact hm key info h

theorem densok_enter (m : CongestionManager) (a b : Coord)
    (hm : DensOk m) : DensOk (m.enter_segment a b) := by
  intro key info h
  rcases hl : alist_lookup m.segment_data (seg_key a b) with _ | info0
  · simp only [CongestionManager.enter_segment, hl] at h
    exact hm key info h
  · simp only [CongestionManager.enter_segment, hl] at h
    rcases alist_lookup_set_cases _ _ _ _ _ h with hc | hc
    · subst hc
      have h0 := hm _ _ hl
      simp only
      omega
    · exact hm key info hc

theorem densok_leave (m : CongestionManager) (a b : Coord)
    (hm : DensOk m) : DensOk (m.leave_segment a b) := by
  intro key info h
  rcases hl : alist_lookup m.segment_data (seg_key a b) with _ | info0
  · simp only [CongestionManager.leave_segment, hl] at h
    exact hm key info h
  · simp only [CongestionManager.leave_segment, hl] at h
    rcases alist_lookup_set_cases _ _ _ _ _ h with hc | hc
    · subst hc
      simp only
      omega
    · exact hm key info hc

theorem densok_applyAll (m : CongestionManager) (calls : List CongCall)
    (hm : DensOk m) : DensOk (CongCall.applyAll m calls) := by
  induction calls generalizing m with
  | nil => exact hm
  | cons c rest ih =>
    have h1 : DensOk (CongCall.apply m c) := by
      cases c with
      | register a b cap => exact densok_register m a b cap hm
      | enter a b => exact densok_enter m a b hm
      | leave a b => exact densok_leave m a b hm
    exact ih _ h1

/-- C7.  Starting from a fresh congestion manager, after any finite sequence
of register/enter/leave calls — in any interleaving, including more leaves
than enters — every registered segment's density is a nonnegative integer. -/
theorem c7_density_nonneg (calls : List CongCall) (key : Coord × Coord)
    (info : SegmentInfo)
    (h : alist_lookup (CongCall.applyAll CongestionManager.init calls).segment_data key
        = some info) :
    0 ≤ info.density := by
  have hinit : DensOk CongestionManager.init := by
    intro k i hk
    simp [CongestionManager.init, alist_lookup] at hk
  exact densok_applyAll _ calls hinit key info h

/-- Witness for C7: one registration followed by two leaves. -/
theorem c7_density_nonneg_witness :
    0 ≤ (({ capacity := 8, density := 0 } : SegmentInfo)).density := by
  have h := c7_density_nonneg
    [.register (0, 0) (0, 1) none, .leave (0, 0) (0, 1), .leave (0, 0) (0, 1)]
    (seg_key (0, 0) (0, 1)) ⟨8, 0⟩
    (by norm_num [CongCall.applyAll, CongCall.apply, CongestionManager.init,
      CongestionManager.register_segment, CongestionManager.leave_segment,
      alist_lookup, alist_set, List.foldl])
  exact h

/-! ## C8: shelter capacity -/

theorem add_occupant_capacity (c : EvacCenterAgent) :
    c.add_occupant.1.capacity = c.capacity := by
  unfold EvacCenterAgent.add_occupant
  split <;> rfl

theorem add_occupant_le (c : EvacCenterAgent) (h : c.occupants ≤ c.capacity) :
    c.add_occupant.1.occupants ≤ c.add_occupant.1.capacity := by
  unfold EvacCenterAgent.add_occupant
  split <;> simp <;> omega

theorem iterate_add_occupant_le (n : ℕ) :
    ∀ c : EvacCenterAgent, c.occupants ≤ c.capacity →
      (Nat.iterate (fun c : EvacCenterAgent => c.add_occupant.1) n c).occupants ≤
        (Nat.iterate (fun c : EvacCenterAgent => c.add_occupant.1) n c).capacity := by
  induction n with
  | zero => intro c h; exact h
  | succ k ih =>
    intro c h
    rw [Function.iterate_succ_apply]
    exact ih _ (add_occupant_le c h)

/-- C8.  A shelter constructed by `EvacCenterAgent.__init__` never exceeds 
its capacity after any number of occupant increments, and an agent arrival
(`PersonAgent._arrive`) preserves the within-capacity invariant of the whole
evacuation-center registry. -/
theorem c8_shelter_capacity :
    (∀ (loc : Coord) (cap n : ℕ),
      (Nat.iterate (fun c : EvacCenterAgent => c.add_occupant.1) n
        (EvacCenterAgent.init loc cap)).occupants ≤ cap) ∧
    (∀ (m : ModelState) (p : PersonAgent),
      EvacOk m.evac_agents → EvacOk (p.arrive m).1.evac_agents) := by
  constructor
  · intro loc cap n
    have h := iterate_add_occupant_le n (EvacCenterAgent.init loc cap) (by simp [EvacCenterAgent.init])
    have hcap : ∀ k : ℕ, (Nat.iterate (fun c : EvacCenterAgent => c.add_occupant.1) k
        (EvacCenterAgent.init loc cap)).capacity = cap := by
      intro k
      induction k with
      | zero => rfl
      | succ j ih =>
        rw [Function.iterate_succ_apply']
        rw [add_occupant_capacity, ih]
    rw [hcap n] at h
    exact h
  · intro m p hEv
    unfold PersonAgent.arrive
    rcases hc : p.evac_center_id with _ | cid
    · simp only [hc]
      exact hEv
    · simp only [hc]
      rcases hl : alist_lookup m.evac_agents cid with _ | center
    
      · simp only [hl]
        exact hEv
      · simp only [hl]
        intro cid' c' h'
        rcases alist_lookup_set_cases _ _ _ _ _ h' with hcc | hcc
        · subst hcc
          rw [add_occupant_capacity]
          have := add_occupant_le center (hEv _ _ hl)
          rw [add_occupant_capacity] at this
          exact this
        · exact hEv _ _ hcc

/-- Witness for C8: three arrivals into a 2-capacity shelter, and arrival
preservation at a concrete model state. -/
theorem c8_shelter_capacity_witness :
    (Nat.iterate (fun c : EvacCenterAgent => c.add_occupant.1) 3
      (EvacCenterAgent.init (0, 0) 2)).occupants ≤ 2 := by
  exact c8_shelter_capacity.1 (0, 0) 2 3

/-! ## C10: the population limit -/

theorem spawn_inner_none (c : ℕ) : ∀ s : ℕ, spawn_inner none c s = s + c := by
  induction c with
  | zero => intro s; rfl
  | succ k ih =>
    intro s
    simp only [spawn_inner, limit_reached, Bool.false_eq_true, if_false]
    rw [ih]
    omega

theorem spawn_inner_zero (c : ℕ) : ∀ s : ℕ, spawn_inner (some 0) c s = s + c := by
  induction c with
  | zero => intro s; rfl
  | succ k ih =>
    intro s
    have hr : limit_reached (some 0) s = false := by simp [limit_reached]
    simp only [spawn_inner, hr, Bool.false_eq_true, if_false]
    rw [ih]
    omega

theorem spawn_inner_some (l c : ℕ) (hl : l ≠ 0) :
    ∀ s : ℕ, spawn_inner (some l) c s = min (s + c) (max s l) := by
  induction c with
  | zero => intro s; simp only [spawn_inner]; omega
  | succ k ih =>
    intro s
    by_cases hs : l ≤ s
    · have hr : limit_reached (some l) s = true := by simp [limit_reached, hl, hs]
      simp only [spawn_inner, hr, if_true]
      omega
    · have hr : limit_reached (some l) s = false := by simp [limit_reached, hs]
      simp only [spawn_inner, hr, Bool.false_eq_true, if_false]
      rw [ih]
      omega

theorem spawn_loop_none (pops : List ℕ) :
    ∀ s : ℕ, spawn_people_loop none pops s = s + pops.sum := by
  induction pops with
  | nil => intro s; simp [spawn_people_loop]
  | cons c rest ih =>
    intro s
    simp only [spawn_people_loop, limit_reached, Bool.false_eq_true, if_false]
    rw [spawn_inner_none, ih, List.sum_cons]
    omega

theorem spawn_loop_zero (pops : List ℕ) :
    ∀ s : ℕ, spawn_people_loop (some 0) pops s = s + pops.sum := by
  induction pops with
  | nil => intro s; simp [spawn_people_loop]
  | cons c rest ih =>
    intro s
    have hr : limit_reached (some 0) s = false := by simp [limit_reached]
    simp only [spawn_people_loop, hr, Bool.false_eq_true, if_false]
    rw [spawn_inner_zero, ih, List.sum_cons]
    omega

theorem spawn_loop_some (l : ℕ) (hl : l ≠ 0) (pops : List ℕ) :
    ∀ s : ℕ, spawn_people_loop (some l) pops s = min (s + pops.sum) (max s l) := by
  induction pops with
  | nil => intro s; simp only [spawn_people_loop, List.sum_nil]; omega
  | cons c rest ih =>
    intro s
    by_cases hs : l ≤ s
    · have hr : limit_reached (some l) s = true := by simp [limit_reached, hl, hs]
      simp only [spawn_people_loop, hr, if_true, List.sum_cons]
      omega
    · have hr : limit_reached (some l) s = false := by simp [limit_reached, hs]
      simp only [spawn_people_loop, hr, Bool.false_eq_true, if_false, List.sum_cons]
      rw [spawn_inner_some l c hl, ih]
      omega

/-- C10.  `_spawn_people` treats a population limit of 0 exactly like no
limit at all (the Python guard tests truthiness): the full population implied
by the building data is spawned; any positive limit caps the number of
spawned evacuees at exactly that limit. -/
theorem c10_population_limit (pops : List ℕ) :
    spawn_people (some 0) pops = pops.sum ∧
    spawn_people none pops = pops.sum ∧
    ∀ l : ℕ, 0 < l → spawn_people (some l) pops = min l pops.sum := by
  refine ⟨?_, ?_, ?_⟩
  · unfold spawn_people
    rw [spawn_loop_zero]
    omega
  · unfold spawn_people
    rw [spawn_loop_none]
    omega
  · intro l hlpos
    unfold spawn_people
    rw [spawn_loop_some l (by omega)]
    omega

/-- Witness for C10: limit 4 against buildings holding 3 + 2 + 4 people. -/
theorem c10_population_limit_witness :
    spawn_people (some 4) [3, 2, 4] = min 4 ([3, 2, 4] : List ℕ).sum := by
  exact (c10_population_limit [3, 2, 4]).2.2 4 (by norm_num)

/-! ## C4: the hazard query contract -/

/-- C4.  `is_inundated(p, t)` holds iff `get_time_to_inundation(p)` is known
and at most `t`; an unknown arrival yields not-inundated; and a hazard
constructed with neither strategy has both mode flags off, in which case
every arrival-time query returns `None` and every inundation query returns
`False` (totally — nothing can throw). -/
theorem c4_hazard_contract :
    (∀ (h : TsunamiHazard) (coord : Coord) (t : ℚ),
      h.is_inundated coord (some t) = true ↔
        ∃ a, h.get_time_to_inundation coord = some a ∧ a ≤ t) ∧
    (∀ (h : TsunamiHazard) (coord : Coord) (time : Option ℚ),
      h.get_time_to_inundation coord = none → h.is_inundated coord time = false) ∧
    (∀ (tm : Coord → ℚ × ℚ) (dm : (ℚ × ℚ) → (ℚ × ℚ) → ℚ),
      (TsunamiHazard.init tm dm none none none).has_precomputed = false ∧
      (TsunamiHazard.init tm dm none none none).has_dynamic = false) ∧
    (∀ (h : TsunamiHazard) (coord : Coord) (time : Option ℚ),
      h.has_precomputed = false → h.has_dynamic = false →
      h.get_time_to_inundation coord = none ∧ h.is_inundated coord time = false) := by
  have key : ∀ (h : TsunamiHazard) (coord : Coord),
      h.has_precomputed = false → h.has_dynamic = false →
      h.get_time_to_inundation coord = none := by
    intro h coord h1 h2
    unfold TsunamiHazard.get_time_to_inundation
    rw [h1, h2]
    simp
  refine ⟨?_, ?_, ?_, ?_⟩
  · intro h coord t
    unfold TsunamiHazard.is_inundated
    rcases hg : h.get_time_to_inundation coord with _ | a
    · simp
    · simp [decide_eq_true_iff]
  · intro h coord time hg
    unfold TsunamiHazard.is_inundated
    rw [hg]
  · intro tm dm
    exact ⟨rfl, rfl⟩
  · intro h coord time h1 h2
    refine ⟨key h coord h1 h2, ?_⟩
    unfold TsunamiHazard.is_inundated
    rw [key h coord h1 h2]

/-- Witness for C4: the no-data hazard answers "unknown" and "not inundated"
at a concrete point and time. -/
theorem c4_hazard_contract_witness :
    (TsunamiHazard.init (fun c => c) (fun _ _ => 0) none none none).get_time_to_inundation
        (5, 5) = none ∧
    (TsunamiHazard.init (fun c => c) (fun _ _ => 0) none none none).is_inundated
        (5, 5) (some 100) = false := by
  exact c4_hazard_contract.2.2.2 (TsunamiHazard.init (fun c => c) (fun _ _ => 0) none none none)
    (5, 5) (some 100) rfl rfl

/-! ## C3: shortest-path failure behaviour -/

theorem foldl_orelse_keep_some {α β : Type} (f : β → Option α) (q : α) :
    ∀ l : List β, l.foldl (orelse_step f) (some q) = some q := by
  intro l
  induction l with
  | nil => rfl
  | cons v rest ih => simpa [orelse_step] using ih

theorem foldl_orelse_eq_some {α β : Type} (f : β → Option α) (p : α) :
    ∀ (l : List β), l.foldl (orelse_step f) none = some p →
      ∃ v, v ∈ l ∧ f v = some p := by
  intro l
  induction l with
  | nil => intro h; simp [List.foldl] at h
  | cons v rest ih =>
    intro h
    simp only [List.foldl] at h
    rcases hf : f v with _ | q
    · rw [show orelse_step f none v = f v from rfl, hf] at h
      rcases ih h with ⟨w, hw, hfw⟩
      exact ⟨w, List.mem_cons_of_mem v hw, hfw⟩
    · rw [show orelse_step f none v = f v from rfl, hf] at h
      rw [foldl_orelse_keep_some] at h
      obtain rfl : q = p := by injection h
      exact ⟨v, List.mem_cons_self v rest, hf⟩

theorem dfs_path_sound (g : RoadGraph) (t : Coord) :
    ∀ (fuel : ℕ) (u : Coord) (visited : List Coord) (p : List Coord),
      dfs_path g t fuel u visited = some p → g.Reachable u t := by
  intro fuel
  induction fuel with
  | zero => intro u visited p h; simp [dfs_path] at h
  | succ f ih =>
    intro u visited p h
    unfold dfs_path at h
    by_cases hu : u = t
    · subst hu
      exact RoadGraph.Reachable.refl u
    · rw [if_neg hu] at h
      rcases foldl_orelse_eq_some _ _ _ h with ⟨v, hv, hfv⟩
      by_cases hvis : v ∈ visited
      · simp [hvis] at hfv
      · simp only [hvis, if_false] at hfv
        rcases hd : dfs_path g t f v (v :: visited) with _ | p'
        · rw [hd] at hfv
          simp at hfv
        · have hreach := ih v (v :: visited) p' hd
          exact RoadGraph.Reachable.step hv hreach

theorem reachable_no_edges (g : RoadGraph) (he : g.edges = []) (u v : Coord)
    (h : g.Reachable u v) : u = v := by
  induction h with
  | refl => rfl
  | step hadj hre ih =>
    exfalso
    rw [RoadGraph.Adj, RoadGraph.neighbors, he] at hadj
    simp at hadj

/-- C3, as stated, is false: on a graph of two isolated nodes the function
ends in the propagated library no-path error instead of returning `[]`. -/
theorem c3_counterexample :
    compute_shortest_route { nodes := [(0, 0), (1, 1)], edges := [] } (0, 0) (1, 1)
      = .error .noPath := by
  norm_num [compute_shortest_route, nearest_node, nx_shortest_path, dfs_path,
    RoadGraph.neighbors, List.foldl, List.filterMap]

/-- C3 amended.  `compute_shortest_route` returns `[]` when the graph is
empty (either query point snaps to `None`); but when both query points snap
to nodes and the target is not reachable from the source, the call ends in
the `NetworkXNoPath` error — which its callers catch and treat as `[]` —
rather than returning an empty sequence itself. -/
theorem c3_no_path_behaviour :
    (∀ start fin : Coord,
      compute_shortest_route { nodes := [], edges := [] } start fin = .ok []) ∧
    (∀ (g : RoadGraph) (start fin s t : Coord),
      nearest_node g start = some s → nearest_node g fin = some t →
      ¬ g.Reachable s t →
      compute_shortest_route g start fin = .error .noPath) := by
  constructor
  · intro start fin
    rfl
  · intro g start fin s t hs ht hr
    have h1 : compute_shortest_route g start fin = nx_shortest_path g s t := by
      unfold compute_shortest_route
      rw [hs, ht]
    rw [h1]
    unfold nx_shortest_path
    rcases hd : dfs_path g t (g.nodes.length + 1) s [s] with _ | p
    · rfl
    · exact absurd (dfs_path_sound g t _ s [s] p hd) hr

/-- Witness for C3 amended: the empty graph, and the two-isolated-node graph
with unreachable snapped endpoints. -/
theorem c3_no_path_behaviour_witness :
    compute_shortest_route { nodes := [], edges := [] } (5, 5) (7, 7) = .ok [] ∧
    compute_shortest_route { nodes := [(0, 0), (1, 1)], edges := [] } (0, 0) (1, 1)
      = .error .noPath := by
  constructor
  · exact c3_no_path_behaviour.1 (5, 5) (7, 7)
  · refine c3_no_path_behaviour.2 { nodes := [(0, 0), (1, 1)], edges := [] }
      (0, 0) (1, 1) (0, 0) (1, 1) (by norm_num [nearest_node, List.foldl])
      (by norm_num [nearest_node, List.foldl]) ?_
    intro h
    have heq := reachable_no_edges _ rfl _ _ h
    have : (0 : ℚ) = 1 := congrArg Prod.fst heq
    norm_num at this

/-! ## C5: position interpolation after rollover -/

/-- C5 fails on the code: with 10-meter segments and a 13-meter tick, the
step rolls the cursor from segment 0 onto segment 1 with final progress 3/10,
but the position is interpolated on the *stale* pre-rollover segment
`(0,0)-(0,1)` instead of the current segment `(0,1)-(1,1)`: the source binds
`start_node, end_node` before the rollover loop and never rebinds them. -/
theorem c5_stale_segment_interpolation :
    (c5_person.step c5_model).2.route_idx = 1 ∧
    (c5_person.step c5_model).2.segment_progress = 3/10 ∧
    (c5_person.step c5_model).2.pos = ((0 : ℚ), (3/10 : ℚ)) ∧
    interpolate ((0 : ℚ), (1 : ℚ)) ((1 : ℚ), (1 : ℚ)) (3/10) = ((3/10 : ℚ), (1 : ℚ)) ∧
    (c5_person.step c5_model).2.pos ≠
      interpolate ((0 : ℚ), (1 : ℚ)) ((1 : ℚ), (1 : ℚ)) (3/10) := by
  norm_num [PersonAgent.step, PersonAgent.current_segment, PersonAgent.arrive,
    c5_person, c5_model, c5_segf, mk_evacuee, CongestionManager.init,
    CongestionManager.get_speed_multiplier, CongestionManager.leave_segment,
    CongestionManager.enter_segment, alist_lookup, seg_key, rollover_loop,
    rollover_go, interpolate, List.getLast?]

/-! ## C9: the zero-length-segment hop -/

/-- C9.  When the current segment has length 0, the movement step advances
the cursor by one segment with progress reset to 0 and the position (and all
other agent fields) unchanged — no movement budget is consumed — while still
leaving the zero-length segment's congestion occupancy and entering the next
segment's (when one exists). -/
theorem c9_zero_length_hop (m : ModelState) (p : PersonAgent) (a b : Coord)
    (hstate : p.state = .evacuating)
    (hseg : p.current_segment = some (a, b))
    (hlen : m.seg_len_m a b = 0) :
    p.step m =
      (let p1 : PersonAgent := { p with route_idx := p.route_idx + 1, segment_progress := 0 }
       let cong1 := m.congestion.leave_segment a b
       let cong2 := match p1.current_segment with
         | some x => cong1.enter_segment x.1 x.2
         | none => cong1
       ({ m with congestion := cong2 }, p1)) := by
  have hidx : p.route_idx + 1 < p.route.length := by
    by_contra hcon
    simp [PersonAgent.current_segment, hcon] at hseg
  have hguard : ¬(p.route.length - 1 ≤ p.route_idx) := by omega
  unfold PersonAgent.step
  rw [hstate]
  simp only [ne_eq, not_true_eq_false, if_false, hguard, hseg, hlen]
  simp only [eq_self_iff_true, if_true]
  split
  · rename_i hsplit
    rw [hsplit]
  · rename_i hsplit
    rw [hsplit]

/-- Witness for C9: a hop over the zero-length first segment of a 3-node
route, against an empty congestion manager. -/
theorem c9_zero_length_hop_witness :
    (mk_evacuee (0, 0) 1 (some 1) [(0, 0), (0, 1), (1, 1)] 0 0 (0, 0)).step
        { congestion := CongestionManager.init, evac_agents := [],
          step_time_seconds := 1, sim_time := 0, hazard := none,
          seg_len_m := fun _ _ => 0 } =
      ({ congestion := CongestionManager.init, evac_agents := [],
         step_time_seconds := 1, sim_time := 0, hazard := none,
         seg_len_m := fun _ _ => 0 },
       mk_evacuee (0, 0) 1 (some 1) [(0, 0), (0, 1), (1, 1)] 1 0 (0, 0)) := by
  have h := c9_zero_length_hop
    { congestion := CongestionManager.init, evac_agents := [],
      step_time_seconds := 1, sim_time := 0, hazard := none,
      seg_len_m := fun _ _ => 0 }
    (mk_evacuee (0, 0) 1 (some 1) [(0, 0), (0, 1), (1, 1)] 0 0 (0, 0))
    (0, 0) (0, 1) rfl
    (by norm_num [PersonAgent.current_segment, mk_evacuee]) rfl
  rw [h]
  norm_num [PersonAgent.current_segment, mk_evacuee, CongestionManager.leave_segment,
    CongestionManager.enter_segment, CongestionManager.init, alist_lookup, seg_key]

/-! ## C6: the round trip over a uniform route -/

theorem leave_segment_empty (m : CongestionManager) (h : m.segment_data = [])
    (a b : Coord) : m.leave_segment a b = m := by
  unfold CongestionManager.leave_segment
  rw [h]
  rfl

theorem enter_segment_empty (m : CongestionManager) (h : m.segment_data = [])
    (a b : Coord) : m.enter_segment a b = m := by
  unfold CongestionManager.enter_segment
  rw [h]
  rfl

theorem get_speed_multiplier_empty (m : CongestionManager) (h : m.segment_data = [])
    (a b : Coord) : m.get_speed_multiplier a b = 1 := by
  unfold CongestionManager.get_speed_multiplier
  rw [h]
  rfl

theorem rollover_go_empty (cong : CongestionManager) (route : List Coord)
    (hcong : cong.segment_data = []) :
    ∀ (n fuel idx : ℕ) (prog : ℚ), 0 ≤ prog →
      min (Int.toNat ⌊prog⌋) (route.length - 1 - idx) = n → n ≤ fuel →
      rollover_go route fuel cong idx prog = (cong, idx + n, prog - (n : ℚ)) := by
  intro n
  induction n with
  | zero =>
    intro fuel idx prog hprog hmin _
    have hguard : ¬(1 ≤ prog ∧ idx < route.length - 1) := by
      rintro ⟨h1, h2⟩
      have hf : (1 : ℤ) ≤ ⌊prog⌋ := Int.le_floor.mpr (by exact_mod_cast h1)
      omega
    cases fuel with
    | zero => simp [rollover_go]
    | succ f =>
      unfold rollover_go
      rw [dif_neg hguard]
      simp
  | succ k ih =>
    intro fuel idx prog hprog hmin hfuel
    cases fuel with
    | zero => omega
    | succ f =>
      have htn : 1 ≤ Int.toNat ⌊prog⌋ := by omega
      have hf : (1 : ℤ) ≤ ⌊prog⌋ := by omega
      have h1 : (1 : ℚ) ≤ prog := by
        have := Int.le_floor.mp hf
        exact_mod_cast this
      have h2 : idx < route.length - 1 := by omega
      unfold rollover_go
      rw [dif_pos ⟨h1, h2⟩]
      rw [leave_segment_empty cong hcong]
      have hstep : ∀ cng2 : CongestionManager, cng2 = cong →
          rollover_go route f cng2 (idx + 1) (prog - 1)
            = (cong, idx + (k + 1), prog - ((k + 1 : ℕ) : ℚ)) := by
        intro cng2 hc2
        subst hc2
        have hfl : ⌊prog - 1⌋ = ⌊prog⌋ - 1 := Int.floor_sub_one prog
        have hmin' : min (Int.toNat ⌊prog - 1⌋) (route.length - 1 - (idx + 1)) = k := by
          rw [hfl]
          omega
        have := ih f (idx + 1) (prog - 1) (by linarith) hmin' (by omega)
        rw [this]
        simp only [Prod.mk.injEq, true_and]
        refine ⟨by omega, ?_⟩
        push_cast
        ring
      dsimp only
      split
      · exact hstep _ (enter_segment_empty cong hcong _ _)
      · exact hstep _ rfl

theorem rollover_loop_empty (cong : CongestionManager) (route : List Coord)
    (hcong : cong.segment_data = []) (idx : ℕ) (prog : ℚ) (hprog : 0 ≤ prog) :
    rollover_loop cong route idx prog =
      (cong, idx + min (Int.toNat ⌊prog⌋) (route.length - 1 - idx),
        prog - ((min (Int.toNat ⌊prog⌋) (route.length - 1 - idx) : ℕ) : ℚ)) := by
  exact rollover_go_empty cong route hcong _ route.length idx prog hprog rfl (by omega)

theorem arrive_empty (m : ModelState) (p : PersonAgent)
    (hcong : m.congestion.segment_data = []) (hevac : m.evac_agents = []) :
    p.arrive m = (m, { p with state := .safe, reached := true }) := by
  unfold PersonAgent.arrive
  have hleave : ∀ a b : Coord, m.congestion.leave_segment a b = m.congestion :=
    fun a b => leave_segment_empty m.congestion hcong a b
  have hcg : (if 0 < p.route_idx then
      match p.route.get? (p.route_idx - 1), p.route.get? p.route_idx with
      | some a, some b => m.congestion.leave_segment a b
      | _, _ => m.congestion
    else m.congestion) = m.congestion := by
    split
    · rcases p.route.get? (p.route_idx - 1) with _ | x <;>
        rcases p.route.get? p.route_idx with _ | y <;> simp [hleave]
    · rfl
  rw [hcg]
  rcases p.evac_center_id with _ | cid
  · rfl
  · have hlk : alist_lookup m.evac_agents cid = none := by rw [hevac]; rfl
    dsimp only
    rw [hlk]

theorem step_at_end (m : ModelState) (p : PersonAgent)
    (hstate : p.state = .evacuating) (hidx : p.route.length - 1 ≤ p.route_idx)
    (hcong : m.congestion.segment_data = []) (hevac : m.evac_agents = []) :
    p.step m = (m, { p with state := .safe, reached := true }) := by
  unfold PersonAgent.step
  rw [hstate]
  simp only [ne_eq, not_true_eq_false, if_false, hidx, if_true]
  exact arrive_empty m p hcong hevac

theorem mk_evacuee_state (home : Coord) (v : ℚ) (eid : Option ℕ) (route : List Coord)
    (idx : ℕ) (prog : ℚ) (pos : Coord) :
    (mk_evacuee home v eid route idx prog pos).state = .evacuating := rfl

theorem mk_evacuee_route (home : Coord) (v : ℚ) (eid : Option ℕ) (route : List Coord)
    (idx : ℕ) (prog : ℚ) (pos : Coord) :
    (mk_evacuee home v eid route idx prog pos).route = route := rfl

theorem mk_evacuee_route_idx (home : Coord) (v : ℚ) (eid : Option ℕ) (route : List Coord)
    (idx : ℕ) (prog : ℚ) (pos : Coord) :
    (mk_evacuee home v eid route idx prog pos).route_idx = idx := rfl

theorem mk_evacuee_segment_progress (home : Coord) (v : ℚ) (eid : Option ℕ)
    (route : List Coord) (idx : ℕ) (prog : ℚ) (pos : Coord) :
    (mk_evacuee home v eid route idx prog pos).segment_progress = prog := rfl

theorem mk_evacuee_speed (home : Coord) (v : ℚ) (eid : Option ℕ) (route : List Coord)
    (idx : ℕ) (prog : ℚ) (pos : Coord) :
    (mk_evacuee home v eid route idx prog pos).speed = v := rfl

theorem mk_evacuee_home (home : Coord) (v : ℚ) (eid : Option ℕ) (route : List Coord)
    (idx : ℕ) (prog : ℚ) (pos : Coord) :
    (mk_evacuee home v eid route idx prog pos).home = home := rfl

theorem mk_evacuee_pos (home : Coord) (v : ℚ) (eid : Option ℕ) (route : List Coord)
    (idx : ℕ) (prog : ℚ) (pos : Coord) :
    (mk_evacuee home v eid route idx prog pos).pos = pos := rfl

theorem mk_evacuee_evac_center_id (home : Coord) (v : ℚ) (eid : Option ℕ)
    (route : List Coord) (idx : ℕ) (prog : ℚ) (pos : Coord) :
    (mk_evacuee home v eid route idx prog pos).evac_center_id = eid := rfl

theorem mk_evacuee_reached (home : Coord) (v : ℚ) (eid : Option ℕ) (route : List Coord)
    (idx : ℕ) (prog : ℚ) (pos : Coord) :
    (mk_evacuee home v eid route idx prog pos).reached = false := rfl

theorem c6_one_tick (m : ModelState) (route : List Coord) (L : ℚ)
    (hcong : m.congestion.segment_data = []) (hevac : m.evac_agents = [])
    (hhaz : m.hazard = none)
    (huni : ∀ (i : ℕ) (a b : Coord), route.get? i = some a →
      route.get? (i + 1) = some b → m.seg_len_m a b = L)
    (hL : 0 < L)
    (home : Coord) (v : ℚ) (eid : Option ℕ) (idx : ℕ) (prog : ℚ) (pos : Coord)
    (hidx : idx < route.length - 1) (hprog : 0 ≤ prog)
    (hprog0 : 0 ≤ prog + v * m.step_time_seconds / L) :
    ∃ q : Coord,
      (idx + min (Int.toNat ⌊prog + v * m.step_time_seconds / L⌋) (route.length - 1 - idx)
          < route.length - 1 →
        (mk_evacuee home v eid route idx prog pos).step m =
          (m, mk_evacuee home v eid route
            (idx + min (Int.toNat ⌊prog + v * m.step_time_seconds / L⌋) (route.length - 1 - idx))
            (prog + v * m.step_time_seconds / L -
              ((min (Int.toNat ⌊prog + v * m.step_time_seconds / L⌋) (route.length - 1 - idx) : ℕ) : ℚ))
            q)) ∧
      (idx + min (Int.toNat ⌊prog + v * m.step_time_seconds / L⌋) (route.length - 1 - idx)
          = route.length - 1 →
        (mk_evacuee home v eid route idx prog pos).step m =
          (m, mk_evacuee home v eid route
            (idx + min (Int.toNat ⌊prog + v * m.step_time_seconds / L⌋) (route.length - 1 - idx))
            (prog + v * m.step_time_seconds / L -
              ((min (Int.toNat ⌊prog + v * m.step_time_seconds / L⌋) (route.length - 1 - idx) : ℕ) : ℚ))
            q) ∨
        (mk_evacuee home v eid route idx prog pos).step m =
          (m, { mk_evacuee home v eid route
            (idx + min (Int.toNat ⌊prog + v * m.step_time_seconds / L⌋) (route.length - 1 - idx))
            (prog + v * m.step_time_seconds / L -
              ((min (Int.toNat ⌊prog + v * m.step_time_seconds / L⌋) (route.length - 1 - idx) : ℕ) : ℚ))
            q with state := .safe, reached := true })) := by
  have hlen2 : 2 ≤ route.length := by omega
  have hidx0 : idx < route.length := by omega
  have hidx1 : idx + 1 < route.length := by omega
  have hA : route.get? idx = some (route.get ⟨idx, hidx0⟩) := List.get?_eq_get hidx0
  have hB : route.get? (idx + 1) = some (route.get ⟨idx + 1, hidx1⟩) := List.get?_eq_get hidx1
  have hseg : m.seg_len_m (route.get ⟨idx, hidx0⟩) (route.get ⟨idx + 1, hidx1⟩) = L :=
    huni idx _ _ hA hB
  have hcs : (mk_evacuee home v eid route idx prog pos).current_segment
      = some (route.get ⟨idx, hidx0⟩, route.get ⟨idx + 1, hidx1⟩) := by
    simp only [PersonAgent.current_segment, mk_evacuee]
    rw [dif_pos hidx1]
  have hmult : m.congestion.get_speed_multiplier (route.get ⟨idx, hidx0⟩)
      (route.get ⟨idx + 1, hidx1⟩) = 1 := get_speed_multiplier_empty _ hcong _ _
  have hroll := rollover_loop_empty m.congestion route hcong idx
    (prog + v * m.step_time_seconds / L) hprog0
  refine ⟨interpolate (route.get ⟨idx, hidx0⟩) (route.get ⟨idx + 1, hidx1⟩)
    (max 0 (min 1 (prog + v * m.step_time_seconds / L -
      ((min (Int.toNat ⌊prog + v * m.step_time_seconds / L⌋) (route.length - 1 - idx) : ℕ) : ℚ)))),
    ?_, ?_⟩
  · intro hlt
    unfold PersonAgent.step
    rw [if_neg (by simp [mk_evacuee])]
    rw [if_neg (by simp only [mk_evacuee]; omega)]
    rw [hcs]
    dsimp only
    rw [hmult, hseg, mul_one]
    rw [if_neg (ne_of_gt hL)]
    simp only [mk_evacuee_route, mk_evacuee_route_idx, mk_evacuee_segment_progress,
      mk_evacuee_speed, mk_evacuee_home, mk_evacuee_pos, mk_evacuee_evac_center_id,
      mk_evacuee_reached, mk_evacuee_state]
    rw [hroll]
    dsimp only
    rw [if_neg (by omega)]
    rw [hhaz]
    simp [mk_evacuee]
    rw [← hhaz]
  · intro heq
    unfold PersonAgent.step
    rw [if_neg (by simp [mk_evacuee])]
    rw [if_neg (by simp only [mk_evacuee]; omega)]
    rw [hcs]
    dsimp only
    rw [hmult, hseg, mul_one]
    rw [if_neg (ne_of_gt hL)]
    simp only [mk_evacuee_route, mk_evacuee_route_idx, mk_evacuee_segment_progress,
      mk_evacuee_speed, mk_evacuee_home, mk_evacuee_pos, mk_evacuee_evac_center_id,
      mk_evacuee_reached, mk_evacuee_state]
    rw [hroll]
    dsimp only
    rw [if_pos (by omega)]
    have hne : route ≠ [] := by
      intro hr
      rw [hr] at hlen2
      simp at hlen2
    rcases hlast : route.getLast? with _ | lastc
    · exact absurd (List.getLast?_eq_none_iff.mp hlast) hne
    · dsimp only
      by_cases hdist : m.seg_len_m
          (interpolate (route.get ⟨idx, hidx0⟩) (route.get ⟨idx + 1, hidx1⟩)
            (max 0 (min 1 (prog + v * m.step_time_seconds / L -
              ((min (Int.toNat ⌊prog + v * m.step_time_seconds / L⌋)
                (route.length - 1 - idx) : ℕ) : ℚ))))) lastc < 1
      · rw [if_pos hdist]
        rw [arrive_empty _ _ hcong hevac]
        dsimp only
        rw [hhaz]
        right
        simp [mk_evacuee]
      · rw [if_neg hdist]
        left
        rw [hhaz]
        simp [mk_evacuee]
        rw [← hhaz]

theorem run_steps_succ (m : ModelState) (p : PersonAgent) (k : ℕ) :
    run_steps m p (k + 1) = (run_steps m p k).2.step (run_steps m p k).1 := by
  induction k generalizing m p with
  | zero => rfl
  | succ j ih =>
    rw [show run_steps m p (j + 1 + 1) = run_steps (p.step m).1 (p.step m).2 (j + 1)
      from rfl, ih]
    rfl

theorem c6_invariant (m : ModelState) (route : List Coord) (L : ℚ)
    (hcong : m.congestion.segment_data = []) (hevac : m.evac_agents = [])
    (hhaz : m.hazard = none)
    (huni : ∀ (i : ℕ) (a b : Coord), route.get? i = some a →
      route.get? (i + 1) = some b → m.seg_len_m a b = L)
    (hL : 0 < L) (home : Coord) (v : ℚ) (eid : Option ℕ)
    (hδ : 0 < v * m.step_time_seconds / L) :
    ∀ t : ℕ, (t : ℚ) * (v * m.step_time_seconds / L) < ((route.length - 1 : ℕ) : ℚ) →
      ∃ q, run_steps m (mk_evacuee home v eid route 0 0 home) t
        = (m, mk_evacuee home v eid route
            (Int.toNat ⌊(t : ℚ) * (v * m.step_time_seconds / L)⌋)
            ((t : ℚ) * (v * m.step_time_seconds / L) -
              ((Int.toNat ⌊(t : ℚ) * (v * m.step_time_seconds / L)⌋ : ℕ) : ℚ)) q) := by
  intro t
  induction t with
  | zero =>
    intro hP
    refine ⟨home, ?_⟩
    norm_num [run_steps]
  | succ t ih =>
    intro hP
    have hδ' := hδ
    have hmono : (t : ℚ) * (v * m.step_time_seconds / L) <
        ((t : ℚ) + 1) * (v * m.step_time_seconds / L) := by nlinarith
    have hcast : ((t + 1 : ℕ) : ℚ) = (t : ℚ) + 1 := by push_cast; ring
    have hPt : (t : ℚ) * (v * m.step_time_seconds / L) <
        ((route.length - 1 : ℕ) : ℚ) := by
      rw [hcast] at hP
      linarith
    rcases ih hPt with ⟨q, hq⟩
    have h0le : (0 : ℚ) ≤ (t : ℚ) * (v * m.step_time_seconds / L) :=
      mul_nonneg (by positivity) (le_of_lt hδ)
    have hfl_nonneg : (0 : ℤ) ≤ ⌊(t : ℚ) * (v * m.step_time_seconds / L)⌋ :=
      Int.floor_nonneg.mpr h0le
    have h_idx_eq : ((Int.toNat ⌊(t : ℚ) * (v * m.step_time_seconds / L)⌋ : ℕ) : ℤ)
        = ⌊(t : ℚ) * (v * m.step_time_seconds / L)⌋ := Int.toNat_of_nonneg hfl_nonneg
    have hfloor_lt : ⌊(t : ℚ) * (v * m.step_time_seconds / L)⌋
        < ((route.length - 1 : ℕ) : ℤ) := by
      rw [Int.floor_lt]
      exact_mod_cast hPt
    have hidxlt : Int.toNat ⌊(t : ℚ) * (v * m.step_time_seconds / L)⌋
        < route.length - 1 := by omega
    have hprog_t : (0 : ℚ) ≤ (t : ℚ) * (v * m.step_time_seconds / L) -
        ((Int.toNat ⌊(t : ℚ) * (v * m.step_time_seconds / L)⌋ : ℕ) : ℚ) := by
      have hle := Int.floor_le ((t : ℚ) * (v * m.step_time_seconds / L))
      have : ((Int.toNat ⌊(t : ℚ) * (v * m.step_time_seconds / L)⌋ : ℕ) : ℚ)
          = ((⌊(t : ℚ) * (v * m.step_time_seconds / L)⌋ : ℤ) : ℚ) := by
        exact_mod_cast congrArg (fun z : ℤ => (z : ℚ)) h_idx_eq
      rw [this]
      linarith
    have hprog0 : (0 : ℚ) ≤ ((t : ℚ) * (v * m.step_time_seconds / L) -
        ((Int.toNat ⌊(t : ℚ) * (v * m.step_time_seconds / L)⌋ : ℕ) : ℚ)) +
        v * m.step_time_seconds / L := by linarith
    rcases c6_one_tick m route L hcong hevac hhaz huni hL home v eid
      (Int.toNat ⌊(t : ℚ) * (v * m.step_time_seconds / L)⌋)
      ((t : ℚ) * (v * m.step_time_seconds / L) -
        ((Int.toNat ⌊(t : ℚ) * (v * m.step_time_seconds / L)⌋ : ℕ) : ℚ))
      q hidxlt hprog_t hprog0 with ⟨q', hc1, hc2⟩
    -- identify the new cursor with the floor at t+1
    have hsum : ((t : ℚ) * (v * m.step_time_seconds / L) -
        ((Int.toNat ⌊(t : ℚ) * (v * m.step_time_seconds / L)⌋ : ℕ) : ℚ)) +
        v * m.step_time_seconds / L
        = ((t + 1 : ℕ) : ℚ) * (v * m.step_time_seconds / L) -
          ((Int.toNat ⌊(t : ℚ) * (v * m.step_time_seconds / L)⌋ : ℕ) : ℚ) := by
      rw [hcast]; ring
    have hfl1 : ⌊((t : ℚ) * (v * m.step_time_seconds / L) -
        ((Int.toNat ⌊(t : ℚ) * (v * m.step_time_seconds / L)⌋ : ℕ) : ℚ)) +
        v * m.step_time_seconds / L⌋
        = ⌊((t + 1 : ℕ) : ℚ) * (v * m.step_time_seconds / L)⌋
          - (Int.toNat ⌊(t : ℚ) * (v * m.step_time_seconds / L)⌋ : ℕ) := by
      rw [hsum, Int.floor_sub_nat]
    have hmono2 : ⌊(t : ℚ) * (v * m.step_time_seconds / L)⌋ ≤
        ⌊((t + 1 : ℕ) : ℚ) * (v * m.step_time_seconds / L)⌋ := by
      apply Int.floor_le_floor
      rw [hcast]
      linarith
    have hfl1_lt : ⌊((t + 1 : ℕ) : ℚ) * (v * m.step_time_seconds / L)⌋
        < ((route.length - 1 : ℕ) : ℤ) := by
      rw [Int.floor_lt]
      exact_mod_cast hP
    have hn : Int.toNat ⌊(t : ℚ) * (v * m.step_time_seconds / L)⌋ +
        min (Int.toNat ⌊((t : ℚ) * (v * m.step_time_seconds / L) -
          ((Int.toNat ⌊(t : ℚ) * (v * m.step_time_seconds / L)⌋ : ℕ) : ℚ)) +
          v * m.step_time_seconds / L⌋)
          (route.length - 1 - Int.toNat ⌊(t : ℚ) * (v * m.step_time_seconds / L)⌋)
        = Int.toNat ⌊((t + 1 : ℕ) : ℚ) * (v * m.step_time_seconds / L)⌋ := by
      rw [hfl1]
      omega
    have hlt2 : Int.toNat ⌊(t : ℚ) * (v * m.step_time_seconds / L)⌋ +
        min (Int.toNat ⌊((t : ℚ) * (v * m.step_time_seconds / L) -
          ((Int.toNat ⌊(t : ℚ) * (v * m.step_time_seconds / L)⌋ : ℕ) : ℚ)) +
          v * m.step_time_seconds / L⌋)
          (route.length - 1 - Int.toNat ⌊(t : ℚ) * (v * m.step_time_seconds / L)⌋)
        < route.length - 1 := by
      rw [hn]
      omega
    have hstep := hc1 hlt2
    refine ⟨q', ?_⟩
    rw [run_steps_succ, hq]
    dsimp only
    rw [hstep]
    rw [hn]
    have hprogeq : ((t : ℚ) * (v * m.step_time_seconds / L) -
        ((Int.toNat ⌊(t : ℚ) * (v * m.step_time_seconds / L)⌋ : ℕ) : ℚ)) +
        v * m.step_time_seconds / L -
        ((min (Int.toNat ⌊((t : ℚ) * (v * m.step_time_seconds / L) -
          ((Int.toNat ⌊(t : ℚ) * (v * m.step_time_seconds / L)⌋ : ℕ) : ℚ)) +
          v * m.step_time_seconds / L⌋)
          (route.length - 1 - Int.toNat ⌊(t : ℚ) * (v * m.step_time_seconds / L)⌋) : ℕ) : ℚ)
        = ((t + 1 : ℕ) : ℚ) * (v * m.step_time_seconds / L) -
          ((Int.toNat ⌊((t + 1 : ℕ) : ℚ) * (v * m.step_time_seconds / L)⌋ : ℕ) : ℚ) := by
      have hmin : (min (Int.toNat ⌊((t : ℚ) * (v * m.step_time_seconds / L) -
          ((Int.toNat ⌊(t : ℚ) * (v * m.step_time_seconds / L)⌋ : ℕ) : ℚ)) +
          v * m.step_time_seconds / L⌋)
          (route.length - 1 - Int.toNat ⌊(t : ℚ) * (v * m.step_time_seconds / L)⌋))
          = Int.toNat ⌊((t + 1 : ℕ) : ℚ) * (v * m.step_time_seconds / L)⌋
            - Int.toNat ⌊(t : ℚ) * (v * m.step_time_seconds / L)⌋ := by
        omega
      rw [hmin, hsum]
      have hge : Int.toNat ⌊(t : ℚ) * (v * m.step_time_seconds / L)⌋ ≤
          Int.toNat ⌊((t + 1 : ℕ) : ℚ) * (v * m.step_time_seconds / L)⌋ := by omega
      rw [Nat.cast_sub hge]
      ring
    rw [hprogeq]

/-- C6 amended.  The round-trip tick count holds when all route segments
have the same length `L`: an evacuee assigned an `N`-node route, moved
tick-by-tick with no registered congestion (multiplier identically 1) and no
hazard, reaches `safe` after `⌈totalLength / (speed * tickSeconds)⌉` ticks or
one tick more (the final-node 1-meter arrival check may miss by one tick),
having been `evacuating` at every earlier tick.  For segments of unequal
lengths the claim is false (see the counterexample): the rollover carries
*fractional* progress, not meters, across segment boundaries. -/
theorem c6_round_trip_uniform (route : List Coord) (L v dt : ℚ)
    (segf : Coord → Coord → ℚ) (home : Coord) (cid : ℕ)
    (hroute : 2 ≤ route.length) (hL : 0 < L) (hv : 0 < v) (hdt : 0 < dt)
    (huni : ∀ (i : ℕ) (a b : Coord), route.get? i = some a →
      route.get? (i + 1) = some b → segf a b = L) :
    ∃ k : ℕ,
      (k = (⌈(((route.length - 1 : ℕ) : ℚ) * L) / (v * dt)⌉).toNat ∨
       k = (⌈(((route.length - 1 : ℕ) : ℚ) * L) / (v * dt)⌉).toNat + 1) ∧
      (run_steps
        { congestion := CongestionManager.init, evac_agents := [],
          step_time_seconds := dt, sim_time := 0, hazard := none, seg_len_m := segf }
        (mk_evacuee home v (some cid) route 0 0 home) k).2.state = .safe ∧
      ∀ j : ℕ, j < k →
        (run_steps
          { congestion := CongestionManager.init, evac_agents := [],
            step_time_seconds := dt, sim_time := 0, hazard := none, seg_len_m := segf }
          (mk_evacuee home v (some cid) route 0 0 home) j).2.state = .evacuating := by
  have hδ : (0 : ℚ) < v * dt / L := by positivity
  have hS1 : 1 ≤ route.length - 1 := by omega
  have hSQ : (1 : ℚ) ≤ ((route.length - 1 : ℕ) : ℚ) := by exact_mod_cast hS1
  have hkey : (((route.length - 1 : ℕ) : ℚ) * L) / (v * dt)
      = ((route.length - 1 : ℕ) : ℚ) / (v * dt / L) := by
    field_simp
  have hx_pos : (0 : ℚ) < ((route.length - 1 : ℕ) : ℚ) / (v * dt / L) := by positivity
  have hT0_pos : (1 : ℤ) ≤ ⌈((route.length - 1 : ℕ) : ℚ) / (v * dt / L)⌉ :=
    Int.ceil_pos.mpr hx_pos
  rw [hkey]
  set Tn := (⌈((route.length - 1 : ℕ) : ℚ) / (v * dt / L)⌉).toNat with hTdef
  have hTn1 : 1 ≤ Tn := by omega
  have hTnZ : ((Tn : ℕ) : ℤ) = ⌈((route.length - 1 : ℕ) : ℚ) / (v * dt / L)⌉ := by
    rw [hTdef]
    omega
  have hThi : ((route.length - 1 : ℕ) : ℚ) ≤ (Tn : ℚ) * (v * dt / L) := by
    have h1 : ((route.length - 1 : ℕ) : ℚ) / (v * dt / L) ≤ (Tn : ℚ) := by
      have := Int.le_ceil (((route.length - 1 : ℕ) : ℚ) / (v * dt / L))
      calc ((route.length - 1 : ℕ) : ℚ) / (v * dt / L)
          ≤ ((⌈((route.length - 1 : ℕ) : ℚ) / (v * dt / L)⌉ : ℤ) : ℚ) := this
        _ = (Tn : ℚ) := by exact_mod_cast congrArg (fun z : ℤ => (z : ℚ)) hTnZ.symm
    calc ((route.length - 1 : ℕ) : ℚ)
        = ((route.length - 1 : ℕ) : ℚ) / (v * dt / L) * (v * dt / L) := by field_simp
      _ ≤ (Tn : ℚ) * (v * dt / L) := by
          exact mul_le_mul_of_nonneg_right h1 (le_of_lt hδ)
  have hTlo : ((Tn - 1 : ℕ) : ℚ) * (v * dt / L) < ((route.length - 1 : ℕ) : ℚ) := by
    have h1 : ((Tn - 1 : ℕ) : ℚ) < ((route.length - 1 : ℕ) : ℚ) / (v * dt / L) := by
      have hceil := Int.ceil_lt_add_one (((route.length - 1 : ℕ) : ℚ) / (v * dt / L))
      have hc2 : ((Tn : ℚ) - 1)
          < ((route.length - 1 : ℕ) : ℚ) / (v * dt / L) := by
        have : ((⌈((route.length - 1 : ℕ) : ℚ) / (v * dt / L)⌉ : ℤ) : ℚ)
            = (Tn : ℚ) := by exact_mod_cast congrArg (fun z : ℤ => (z : ℚ)) hTnZ.symm
        linarith [hceil, this.symm.le, this.le]
      have : ((Tn - 1 : ℕ) : ℚ) = (Tn : ℚ) - 1 := by
        have := hTn1
        push_cast [Nat.cast_sub this]
        ring
      rw [this]
      exact hc2
    calc ((Tn - 1 : ℕ) : ℚ) * (v * dt / L)
        < ((route.length - 1 : ℕ) : ℚ) / (v * dt / L) * (v * dt / L) := by
          exact mul_lt_mul_of_pos_right h1 hδ
      _ = ((route.length - 1 : ℕ) : ℚ) := by field_simp
  -- the ambient model
  have hmono : ∀ j : ℕ, j ≤ Tn - 1 →
      (j : ℚ) * (v * dt / L) < ((route.length - 1 : ℕ) : ℚ) := by
    intro j hj
    have h1 : (j : ℚ) ≤ ((Tn - 1 : ℕ) : ℚ) := by exact_mod_cast hj
    calc (j : ℚ) * (v * dt / L) ≤ ((Tn - 1 : ℕ) : ℚ) * (v * dt / L) :=
        mul_le_mul_of_nonneg_right h1 (le_of_lt hδ)
      _ < ((route.length - 1 : ℕ) : ℚ) := hTlo
  set m0 : ModelState := { congestion := CongestionManager.init
                           evac_agents := []
                           step_time_seconds := dt
                           sim_time := 0
                           hazard := none
                           seg_len_m := segf } with hm0
  have hdteq : m0.step_time_seconds = dt := rfl
  have hinv := c6_invariant m0 route L rfl rfl rfl huni hL home v (some cid)
    (by rw [hdteq]; exact hδ)
  obtain ⟨q, hq⟩ := hinv (Tn - 1) (by rw [hdteq]; exact hmono (Tn - 1) le_rfl)
  rw [hdteq] at hq
  set x1 := ((Tn - 1 : ℕ) : ℚ) * (v * dt / L) with hx1
  set i1 := Int.toNat ⌊x1⌋ with hi1
  have hx1lt : x1 < ((route.length - 1 : ℕ) : ℚ) := hTlo
  have hx1nonneg : (0 : ℚ) ≤ x1 := by
    rw [hx1]
    positivity
  have hfl_nonneg : (0 : ℤ) ≤ ⌊x1⌋ := Int.floor_nonneg.mpr hx1nonneg
  have hi1Z : ((i1 : ℕ) : ℤ) = ⌊x1⌋ := Int.toNat_of_nonneg hfl_nonneg
  have hfloor_lt : ⌊x1⌋ < ((route.length - 1 : ℕ) : ℤ) := by
    rw [Int.floor_lt]
    exact_mod_cast hx1lt
  have hi1lt : i1 < route.length - 1 := by omega
  have hi1cast : ((i1 : ℕ) : ℚ) = ((⌊x1⌋ : ℤ) : ℚ) := by exact_mod_cast hi1Z
  have hpr1 : (0 : ℚ) ≤ x1 - ((i1 : ℕ) : ℚ) := by
    have := Int.floor_le x1
    rw [hi1cast]
    linarith
  have hpr0 : (0 : ℚ) ≤ (x1 - ((i1 : ℕ) : ℚ)) + v * m0.step_time_seconds / L := by
    rw [hdteq]
    linarith
  obtain ⟨q', hc1, hc2⟩ := c6_one_tick m0 route L rfl rfl rfl huni hL home v (some cid)
    i1 (x1 - ((i1 : ℕ) : ℚ)) q hi1lt hpr1 hpr0
  rw [hdteq] at hc1 hc2
  have hTncast : ((Tn : ℕ) : ℚ) = ((Tn - 1 : ℕ) : ℚ) + 1 := by
    push_cast [Nat.cast_sub hTn1]
    ring
  have hsum2 : (x1 - ((i1 : ℕ) : ℚ)) + v * dt / L
      = ((Tn : ℕ) : ℚ) * (v * dt / L) - ((i1 : ℕ) : ℚ) := by
    rw [hTncast, hx1]
    ring
  have hfl2 : ⌊(x1 - ((i1 : ℕ) : ℚ)) + v * dt / L⌋
      = ⌊((Tn : ℕ) : ℚ) * (v * dt / L)⌋ - (i1 : ℕ) := by
    rw [hsum2, Int.floor_sub_nat]
  have hfloorTn_ge : ((route.length - 1 : ℕ) : ℤ) ≤ ⌊((Tn : ℕ) : ℚ) * (v * dt / L)⌋ := by
    rw [Int.le_floor]
    exact_mod_cast hThi
  have heqn : i1 + min (Int.toNat ⌊(x1 - ((i1 : ℕ) : ℚ)) + v * dt / L⌋)
      (route.length - 1 - i1) = route.length - 1 := by
    rw [hfl2]
    omega
  rcases hc2 heqn with hA | hB
  · -- the arrival check misses: safe one tick later
    have hrunTn : run_steps m0 (mk_evacuee home v (some cid) route 0 0 home) Tn
        = (m0, mk_evacuee home v (some cid) route
            (i1 + min (Int.toNat ⌊(x1 - ((i1 : ℕ) : ℚ)) + v * dt / L⌋)
              (route.length - 1 - i1))
            ((x1 - ((i1 : ℕ) : ℚ)) + v * dt / L -
              ((min (Int.toNat ⌊(x1 - ((i1 : ℕ) : ℚ)) + v * dt / L⌋)
                (route.length - 1 - i1) : ℕ) : ℚ)) q') := by
      rw [show Tn = (Tn - 1) + 1 by omega, run_steps_succ, hq]
      exact hA
    refine ⟨Tn + 1, Or.inr rfl, ?_, ?_⟩
    · rw [run_steps_succ, hrunTn]
      rw [step_at_end m0 _ rfl (by simp only [mk_evacuee]; omega) rfl rfl]
    · intro j hj
      by_cases hjT : j = Tn
      · subst hjT
        rw [hrunTn]
        rfl
      · have hj1 : j ≤ Tn - 1 := by omega
        obtain ⟨qj, hqj⟩ := hinv j (by rw [hdteq]; exact hmono j hj1)
        rw [hqj]
        rfl
  · -- the arrival check hits: safe exactly at the ceiling tick
    have hrunTn : run_steps m0 (mk_evacuee home v (some cid) route 0 0 home) Tn
        = (m0, { mk_evacuee home v (some cid) route
            (i1 + min (Int.toNat ⌊(x1 - ((i1 : ℕ) : ℚ)) + v * dt / L⌋)
              (route.length - 1 - i1))
            ((x1 - ((i1 : ℕ) : ℚ)) + v * dt / L -
              ((min (Int.toNat ⌊(x1 - ((i1 : ℕ) : ℚ)) + v * dt / L⌋)
                (route.length - 1 - i1) : ℕ) : ℚ)) q' with
            state := .safe, reached := true }) := by
      rw [show Tn = (Tn - 1) + 1 by omega, run_steps_succ, hq]
      exact hB
    refine ⟨Tn, Or.inl rfl, ?_, ?_⟩
    · rw [hrunTn]
    · intro j hj
      have hj1 : j ≤ Tn - 1 := by omega
      obtain ⟨qj, hqj⟩ := hinv j (by rw [hdteq]; exact hmono j hj1)
      rw [hqj]
      rfl

/-- C6, as stated, fails on unequal segment lengths: on a 2-segment route of
lengths 10 and 100 meters (total 110), at 30 m/s with 1-second ticks and
multiplier 1, the evacuee is safe after 2 ticks, while
`⌈110 / 30⌉ = 4` — more than one tick away. -/
theorem c6_counterexample :
    c6cx_segf (0, 0) (0, 1) + c6cx_segf (0, 1) (1, 1) = 110 ∧
    (⌈(110 : ℚ) / (30 * 1)⌉ : ℤ) = 4 ∧
    (run_steps c6cx_model c6cx_person 1).2.state = PState.evacuating ∧
    (run_steps c6cx_model c6cx_person 2).2.state = PState.safe ∧
    ¬((4 : ℤ) - 1 ≤ 2) := by
  refine ⟨by norm_num [c6cx_segf], ?_, ?_, ?_, by norm_num⟩
  · rw [show ((110 : ℚ) / (30 * 1)) = 11/3 by norm_num]
    rw [Int.ceil_eq_iff]
    constructor <;> norm_num
  · norm_num [run_steps, PersonAgent.step, PersonAgent.current_segment,
      PersonAgent.arrive, c6cx_person, c6cx_model, c6cx_segf, mk_evacuee,
      CongestionManager.init, CongestionManager.get_speed_multiplier,
      CongestionManager.leave_segment, CongestionManager.enter_segment,
      alist_lookup, seg_key, rollover_loop, rollover_go, interpolate,
      List.getLast?]
  · norm_num [run_steps, PersonAgent.step, PersonAgent.current_segment,
      PersonAgent.arrive, c6cx_person, c6cx_model, c6cx_segf, mk_evacuee,
      CongestionManager.init, CongestionManager.get_speed_multiplier,
      CongestionManager.leave_segment, CongestionManager.enter_segment,
      alist_lookup, seg_key, rollover_loop, rollover_go, interpolate,
      List.getLast?]

/-- Witness for C6 amended: a 3-node route with two 10-meter segments,
1 m/s, 5-second ticks. -/
theorem c6_round_trip_uniform_witness :
    ∃ k : ℕ,
      (k = (⌈(((([((0 : ℚ), (0 : ℚ)), ((0 : ℚ), (1 : ℚ)), ((1 : ℚ), (1 : ℚ))] : List Coord).length
          - 1 : ℕ) : ℚ) * 10) / ((1 : ℚ) * 5)⌉).toNat ∨
       k = (⌈(((([((0 : ℚ), (0 : ℚ)), ((0 : ℚ), (1 : ℚ)), ((1 : ℚ), (1 : ℚ))] : List Coord).length
          - 1 : ℕ) : ℚ) * 10) / ((1 : ℚ) * 5)⌉).toNat + 1) ∧
      (run_steps
        { congestion := CongestionManager.init, evac_agents := [],
          step_time_seconds := 5, sim_time := 0, hazard := none,
          seg_len_m := fun _ _ => 10 }
        (mk_evacuee (0, 0) 1 (some 1)
          [((0 : ℚ), (0 : ℚ)), ((0 : ℚ), (1 : ℚ)), ((1 : ℚ), (1 : ℚ))] 0 0 (0, 0)) k).2.state
        = .safe ∧
      ∀ j : ℕ, j < k →
        (run_steps
          { congestion := CongestionManager.init, evac_agents := [],
            step_time_seconds := 5, sim_time := 0, hazard := none,
            seg_len_m := fun _ _ => 10 }
          (mk_evacuee (0, 0) 1 (some 1)
            [((0 : ℚ), (0 : ℚ)), ((0 : ℚ), (1 : ℚ)), ((1 : ℚ), (1 : ℚ))] 0 0 (0, 0)) j).2.state
          = .evacuating := by
  exact c6_round_trip_uniform
    [((0 : ℚ), (0 : ℚ)), ((0 : ℚ), (1 : ℚ)), ((1 : ℚ), (1 : ℚ))] 10 1 5 (fun _ _ => 10)
    (0, 0) 1 (by norm_num) (by norm_num) (by norm_num) (by norm_num)
    (fun i a b _ _ => rfl)

/-! ## C1: terminal states and the transition relation -/

theorem step_rel_refl (a : PState) : step_rel a a := Or.inl rfl

theorem step_rel_trans {a b c : PState} (h1 : step_rel a b) (h2 : step_rel b c) :
    step_rel a c := by
  rcases h1 with rfl | ⟨rfl, hb⟩
  · exact h2
  · rcases h2 with rfl | ⟨rfl, hc⟩
    · exact Or.inr ⟨rfl, hb⟩
    · rcases hb with hb | hb | hb <;> simp at hb

theorem step_rel_allowed {a b : PState} (h : step_rel a b) : allowed_edge a b := by
  rcases h with rfl | ⟨rfl, hb⟩
  · exact Or.inl rfl
  · exact Or.inr (Or.inr (Or.inr ⟨rfl, hb⟩))

theorem terminal_ne_evacuating {p : PState} (h : p.isTerminal = true) :
    p ≠ PState.evacuating := by
  cases p <;> simp_all [PState.isTerminal]

/-- C1 helper: the movement step of an agent in a terminal state changes
nothing at all — neither the agent nor the shared model state. -/
theorem step_terminal (m : ModelState) (p : PersonAgent)
    (h : p.state.isTerminal = true) : p.step m = (m, p) := by
  unfold PersonAgent.step
  rw [if_pos (terminal_ne_evacuating h)]

theorem arrive_snd (m : ModelState) (p : PersonAgent) :
    (p.arrive m).2 = { p with state := .safe, reached := true } := by
  unfold PersonAgent.arrive
  dsimp only
  rcases ({ p with state := PState.safe, reached := true } : PersonAgent).evac_center_id
    with _ | cid
  · rfl
  · dsimp only
    rcases alist_lookup m.evac_agents cid with _ | center
    · rfl
    · rfl

theorem become_overtaken_snd (m : ModelState) (p : PersonAgent) :
    (p.become_overtaken m).2 = { p with state := .overtaken, reached := false } := rfl

theorem assign_route_snd_state (m : ModelState) (p : PersonAgent)
    (r : List Coord) (e : Option ℕ) :
    (p.assign_route m r e).2.state =
      (if r.length < 2 then PState.stuck else PState.evacuating) := by
  unfold PersonAgent.assign_route
  split <;>
  · dsimp only
    split
    · rename_i h
      simp [h]
    · rename_i h
      simp [h]

theorem step_state_rel (m : ModelState) (p : PersonAgent) :
    step_rel p.state (p.step m).2.state := by
  by_cases hs : p.state = .evacuating
  · unfold PersonAgent.step
    rw [if_neg (by simp [hs])]
    repeat' first
      | split
      | (dsimp only; split)
    all_goals try rw [become_overtaken_snd]
    all_goals try rw [arrive_snd]
    all_goals first
      | exact step_rel_refl _
      | exact Or.inr ⟨hs, Or.inl rfl⟩
      | exact Or.inr ⟨hs, Or.inr (Or.inl rfl)⟩
      | exact Or.inr ⟨hs, Or.inr (Or.inr rfl)⟩
  · unfold PersonAgent.step
    rw [if_pos hs]
    exact Or.inl rfl

/-- C1 helper: the movement step of an agent whose state is anything but
`evacuating` returns model and agent unchanged. -/
theorem step_nonevac (m : ModelState) (p : PersonAgent)
    (h : ¬ p.state = PState.evacuating) : p.step m = (m, p) := by
  unfold PersonAgent.step
  rw [if_pos h]

theorem alist_set_set {κ α : Type} [DecidableEq κ] (l : List (κ × α))
    (k : κ) (v w : α) : alist_set (alist_set l k v) k w = alist_set l k w := by
  induction l with
  | nil => rfl
  | cons head tail ih =>
    obtain ⟨a, b⟩ := head
    by_cases hk : a = k
    · simp [alist_set, hk]
    · simp [alist_set, hk, ih]

theorem withModelState_persons (s : EvacuationModel) (m : ModelState) :
    (s.withModelState m).person_agents = s.person_agents := rfl

theorem setPerson_persons (s : EvacuationModel) (uid : ℕ) (p : PersonAgent) :
    (s.setPerson uid p).person_agents = alist_set s.person_agents uid p := rfl

/-- The defensive cleanup touches congestion only, never the person list. -/
theorem cleanup_persons (s : EvacuationModel) (v : ℕ) :
    (s.cleanup_terminal v).person_agents = s.person_agents := by
  unfold EvacuationModel.cleanup_terminal
  repeat' first
    | split
    | (dsimp only; split)
  all_goals rfl

/-- A reroute either leaves the person list alone or overwrites the processed
entry with an `evacuating` record (the install is guarded by a length-2 path). -/
theorem recompute_persons (s : EvacuationModel) (v : ℕ) :
    (s.recompute_route_for_person v).1.person_agents = s.person_agents ∨
    ∃ x : PersonAgent, x.state = PState.evacuating ∧
      (s.recompute_route_for_person v).1.person_agents =
        alist_set s.person_agents v x := by
  unfold EvacuationModel.recompute_route_for_person
  split
  · exact Or.inl rfl
  dsimp only
  split
  · exact Or.inl rfl
  split
  · exact Or.inl rfl
  split
  · rename_i hlen
    right
    refine ⟨_, ?_, rfl⟩
    rw [assign_route_snd_state]
    exact if_neg (by omega)
  · exact Or.inl rfl

/-- The capacity branch has the same person-list footprint as a reroute. -/
theorem capacity_persons (s : EvacuationModel) (v : ℕ) :
    (s.capacity_check v).person_agents = s.person_agents ∨
    ∃ x : PersonAgent, x.state = PState.evacuating ∧
      (s.capacity_check v).person_agents = alist_set s.person_agents v x := by
  unfold EvacuationModel.capacity_check
  repeat' first
    | split
    | (dsimp only; split)
  all_goals try exact Or.inl rfl
  all_goals exact recompute_persons s v

/-- Chaining a capacity check and a cleanup after an optional reroute keeps
the per-person update footprint. -/
theorem chain_fact (s s1 : EvacuationModel) (v : ℕ) (person : PersonAgent)
    (hl : alist_lookup s.person_agents v = some person)
    (hev : person.state = PState.evacuating)
    (h1 : s1.person_agents = s.person_agents ∨
      ∃ x : PersonAgent, x.state = PState.evacuating ∧
        s1.person_agents = alist_set s.person_agents v x) :
    PersonsFact s ((s1.capacity_check v).cleanup_terminal v) v := by
  have h2 := capacity_persons s1 v
  unfold PersonsFact
  rw [cleanup_persons]
  rcases h1 with h1 | ⟨x, hx, h1⟩
  · rcases h2 with h2 | ⟨y, hy, h2⟩
    · exact Or.inl (h2.trans h1)
    · exact Or.inr ⟨person, y, hl, hev, Or.inl (hev.trans hy.symm), by rw [h2, h1]⟩
  · rcases h2 with h2 | ⟨y, hy, h2⟩
    · exact Or.inr ⟨person, x, hl, hev, Or.inl (hev.trans hx.symm), by rw [h2, h1]⟩
    · refine Or.inr ⟨person, y, hl, hev, Or.inl (hev.trans hy.symm), ?_⟩
      rw [h2, h1, alist_set_set]

/-- One schedule activation has the per-person update footprint. -/
theorem activate_fact (s : EvacuationModel) (v : ℕ) :
    PersonsFact s (s.activate_person v) v := by
  unfold EvacuationModel.activate_person
  rcases hl : alist_lookup s.person_agents v with _ | pv
  · exact Or.inl rfl
  · dsimp only
    by_cases hev : pv.state = PState.evacuating
    · exact Or.inr ⟨pv, (pv.step s.toModelState).2, hl, hev, step_state_rel _ _, rfl⟩
    · left
      rw [step_nonevac _ _ hev]
      exact alist_set_self_eq _ _ _ hl

/-- One post-move pass slice has the per-person update footprint. -/
theorem post_pass_fact (s : EvacuationModel) (v : ℕ) :
    PersonsFact s (s.post_pass_person v) v := by
  unfold EvacuationModel.post_pass_person
  rcases hl : alist_lookup s.person_agents v with _ | person
  · exact Or.inl rfl
  · dsimp only
    by_cases hev : person.state = PState.evacuating
    · rw [if_pos hev]
      rcases s.hazard with _ | hz
      · exact Or.inl rfl
      · dsimp only
        rcases hz.get_time_to_inundation person.pos with _ | arrival
        · exact chain_fact s s v person hl hev (Or.inl rfl)
        · dsimp only
          by_cases harr : arrival ≤ s.sim_time
          · rw [if_pos harr]
            refine Or.inr ⟨person, (person.become_overtaken s.toModelState).2, hl, hev, ?_, rfl⟩
            rw [become_overtaken_snd]
            exact Or.inr ⟨hev, Or.inr (Or.inr rfl)⟩
          · rw [if_neg harr]
            by_cases hth : arrival - s.sim_time ≤ s.reroute_threshold_s
            · rw [if_pos hth]
              exact chain_fact s _ v person hl hev (recompute_persons s v)
            · rw [if_neg hth]
              exact chain_fact s s v person hl hev (Or.inl rfl)
    · rw [if_neg hev]
      exact Or.inl (cleanup_persons s v)

/-- A footprinted operation moves a looked-up person's state along
`step_rel`. -/
theorem fact_rel {s s1 : EvacuationModel} {v u : ℕ} {p q : PersonAgent}
    (hf : PersonsFact s s1 v)
    (hp : alist_lookup s.person_agents u = some p)
    (hq : alist_lookup s1.person_agents u = some q) :
    step_rel p.state q.state := by
  rcases hf with hf | ⟨pv, x, hlv, hev, hrel, hf⟩
  · rw [hf, hp] at hq
    injection hq with hq
    rw [hq]
    exact step_rel_refl _
  · by_cases huv : u = v
    · subst huv
      rw [hp] at hlv
      injection hlv with hlv
      rw [hf, alist_lookup_set_self _ _ _ _ hp] at hq
      injection hq with hq
      rw [← hq, hlv]
      exact hrel
    · rw [hf, alist_lookup_set_ne _ _ _ _ huv, hp] at hq
      injection hq with hq
      rw [hq]
      exact step_rel_refl _

/-- A footprinted operation never adds or removes registry entries. -/
theorem fact_isSome {s s1 : EvacuationModel} {v : ℕ} (u : ℕ)
    (hf : PersonsFact s s1 v) :
    (alist_lookup s1.person_agents u).isSome =
      (alist_lookup s.person_agents u).isSome := by
  rcases hf with hf | ⟨pv, x, hlv, hev, hrel, hf⟩
  · rw [hf]
  · rw [hf, alist_lookup_set_isSome]

/-- A footprinted operation keeps a terminal person's record verbatim. -/
theorem fact_keep {s s1 : EvacuationModel} {v u : ℕ} {p : PersonAgent}
    (hf : PersonsFact s s1 v)
    (hp : alist_lookup s.person_agents u = some p)
    (ht : p.state.isTerminal = true) :
    alist_lookup s1.person_agents u = some p := by
  rcases hf with hf | ⟨pv, x, hlv, hev, hrel, hf⟩
  · rw [hf]
    exact hp
  · by_cases huv : u = v
    · subst huv
      rw [hp] at hlv
      injection hlv with hlv
      rw [← hlv] at hev
      exact absurd hev (terminal_ne_evacuating ht)
    · rw [hf, alist_lookup_set_ne _ _ _ _ huv]
      exact hp

/-- Folding a footprinted operation over any id list keeps terminal records. -/
theorem foldl_fact_keep {f : EvacuationModel → ℕ → EvacuationModel}
    (hf : ∀ s v, PersonsFact s (f s v) v) :
    ∀ (l : List ℕ) (s : EvacuationModel) (u : ℕ) (p : PersonAgent),
      alist_lookup s.person_agents u = some p → p.state.isTerminal = true →
      alist_lookup (l.foldl f s).person_agents u = some p := by
  intro l
  induction l with
  | nil =>
    intro s u p hp _
    exact hp
  | cons head tail ih =>
    intro s u p hp ht
    exact ih (f s head) u p (fact_keep (hf s head) hp ht) ht

/-- Folding a footprinted operation never adds or removes registry entries. -/
theorem foldl_fact_isSome {f : EvacuationModel → ℕ → EvacuationModel}
    (hf : ∀ s v, PersonsFact s (f s v) v) :
    ∀ (l : List ℕ) (s : EvacuationModel) (u : ℕ),
      (alist_lookup (l.foldl f s).person_agents u).isSome =
        (alist_lookup s.person_agents u).isSome := by
  intro l
  induction l with
  | nil =>
    intro s u
    rfl
  | cons head tail ih =>
    intro s u
    rw [List.foldl_cons, ih, fact_isSome u (hf s head)]

/-- Folding a footprinted operation moves every person along `step_rel`. -/
theorem foldl_fact_rel {f : EvacuationModel → ℕ → EvacuationModel}
    (hf : ∀ s v, PersonsFact s (f s v) v) :
    ∀ (l : List ℕ) (s : EvacuationModel) (u : ℕ) (p q : PersonAgent),
      alist_lookup s.person_agents u = some p →
      alist_lookup (l.foldl f s).person_agents u = some q →
      step_rel p.state q.state := by
  intro l
  induction l with
  | nil =>
    intro s u p q hp hq
    rw [List.foldl_nil, hp] at hq
    injection hq with hq
    rw [hq]
    exact step_rel_refl _
  | cons head tail ih =>
    intro s u p q hp hq
    have hsome : (alist_lookup (f s head).person_agents u).isSome = true := by
      rw [fact_isSome u (hf s head), hp]
      rfl
    rcases hmid : alist_lookup (f s head).person_agents u with _ | p1
    · rw [hmid] at hsome
      simp at hsome
    · rw [List.foldl_cons] at hq
      exact step_rel_trans (fact_rel (hf s head) hp hmid) (ih (f s head) u p1 q hmid hq)

/-- The activation fold followed by the post-pass fold moves every person
along `step_rel`. -/
theorem two_fold_rel (s0 : EvacuationModel) (order : List ℕ) (u : ℕ)
    (p q : PersonAgent)
    (hp : alist_lookup s0.person_agents u = some p)
    (hq : alist_lookup
        ((((order.foldl EvacuationModel.activate_person s0).person_agents.map
            Prod.fst).foldl EvacuationModel.post_pass_person
          (order.foldl EvacuationModel.activate_person s0))).person_agents u =
      some q) :
    step_rel p.state q.state := by
  have hsome :
      (alist_lookup (order.foldl EvacuationModel.activate_person
        s0).person_agents u).isSome = true := by
    rw [foldl_fact_isSome activate_fact, hp]
    rfl
  rcases hmid : alist_lookup (order.foldl EvacuationModel.activate_person
      s0).person_agents u with _ | p1
  · rw [hmid] at hsome
    simp at hsome
  · exact step_rel_trans
      (foldl_fact_rel activate_fact order s0 u p p1 hp hmid)
      (foldl_fact_rel post_pass_fact _ _ u p1 q hmid hq)

/-- C1 (amended core): (1) the movement step of an agent in a terminal state
(`safe`, `stuck`, `overtaken`) changes neither the agent record — state,
position, cursor — nor the shared model state; (2) a full orchestrator tick
keeps every terminal person's record verbatim; (3) every agent movement step
and (4) every full orchestrator tick move each person's state only along the
edges allowed by the §4.4 state machine. (The congestion half of the original
claim fails: see the defensive cleanup counterexample.) -/
theorem c1_terminal_states :
    (∀ (m : ModelState) (p : PersonAgent),
      p.state.isTerminal = true → p.step m = (m, p)) ∧
    (∀ (s : EvacuationModel) (order : List ℕ) (u : ℕ) (p : PersonAgent),
      alist_lookup s.person_agents u = some p → p.state.isTerminal = true →
      alist_lookup (s.step order).person_agents u = some p) ∧
    (∀ (m : ModelState) (p : PersonAgent),
      allowed_edge p.state (p.step m).2.state) ∧
    (∀ (s : EvacuationModel) (order : List ℕ) (u : ℕ) (p q : PersonAgent),
      alist_lookup s.person_agents u = some p →
      alist_lookup (s.step order).person_agents u = some q →
      allowed_edge p.state q.state) := by
  refine ⟨step_terminal, ?_, ?_, ?_⟩
  · intro s order u p hp ht
    simp only [EvacuationModel.step, EvacuationModel.schedule_step]
    exact foldl_fact_keep post_pass_fact _ _ u p
      (foldl_fact_keep activate_fact order _ u p hp ht) ht
  · intro m p
    exact step_rel_allowed (step_state_rel m p)
  · intro s order u p q hp hq
    simp only [EvacuationModel.step, EvacuationModel.schedule_step] at hq
    exact step_rel_allowed (two_fold_rel _ order u p q (by exact hp) hq)

/-- C1 witness: the overtaken evacuee of the cleanup fixture survives one
orchestrator tick verbatim. -/
theorem c1_terminal_states_witness :
    alist_lookup (c1cx_state.step [1]).person_agents 1 = some c1cx_person :=
  c1_terminal_states.2.1 c1cx_state [1] 1 c1cx_person rfl rfl

/-- C1 counterexample to the congestion half of the claim: an overtaken
(terminal) evacuee whose cursor still sits on a registered density-1 segment;
one orchestrator tick runs the defensive cleanup, which calls
`leave_segment` on that segment on the terminal agent's behalf and drops its
density from 1 to 0. -/
theorem c1_counterexample :
    c1cx_person.state = PState.overtaken ∧
    alist_lookup c1cx_state.person_agents 1 = some c1cx_person ∧
    c1cx_state.congestion.get_density (0, 0) (0, 1) = 1 ∧
    (c1cx_state.step [1]).congestion.get_density (0, 0) (0, 1) = 0 := by
  refine ⟨rfl, rfl, ?_, ?_⟩
  · norm_num [c1cx_state, c1cx_cong, CongestionManager.init,
      CongestionManager.register_segment, CongestionManager.enter_segment,
      CongestionManager.get_density, seg_key, alist_lookup, alist_set]
  · norm_num [c1cx_state, c1cx_cong, c1cx_person, mk_evacuee,
      CongestionManager.init, CongestionManager.register_segment,
      CongestionManager.enter_segment, CongestionManager.leave_segment,
      CongestionManager.get_density, seg_key, alist_lookup, alist_set,
      EvacuationModel.step, EvacuationModel.schedule_step,
      EvacuationModel.activate_person, EvacuationModel.post_pass_person,
      EvacuationModel.cleanup_terminal, EvacuationModel.capacity_check,
      EvacuationModel.toModelState, EvacuationModel.withModelState,
      EvacuationModel.setPerson, PersonAgent.step,
      PersonAgent.current_segment]
